import Mathlib

/-!
Verification of the structured-field extraction pipeline of the Jagrut
repository (React Native bill/ticket scanner).

The development shallowly embeds the TypeScript sources:
  * `src/services/ocr.ts` (class `OCRService`): OCR text heuristics,
    ticket validation, and the OCR/QR candidate merge;
  * `src/screens/QRScannerScreen.tsx` (and the repository's second copy of
    the same screen): the QR payload decoder with its JSON / key-value /
    custom segmented / free-text strategies.

JavaScript semantics are modelled explicitly: strings are lists of
characters, numbers are exact rationals (`ℚ`, with `Option ℚ` where NaN is
observable and `Option (Option ℚ)` where a slot can be absent, NaN or a
number), `Date` objects are epoch milliseconds (`Int`, the timezone offset
taken as zero throughout, which is consistent because every construction
and observation in the modelled code uses the same local clock), and the
regular expressions of the source are executed by a small backtracking
matcher that implements exactly the constructs those patterns use.
-/

namespace Jagrut

/-! ## Characters and JS string primitives -/

/-- Left brace character (written by code so that no brace appears in a literal). -/
def lbrace : Char := Char.ofNat 123

/-- Right brace character. -/
def rbrace : Char := Char.ofNat 125

def isDigitC (c : Char) : Bool := '0' ≤ c && c ≤ '9'

def isUpperAZ (c : Char) : Bool := 'A' ≤ c && c ≤ 'Z'

def isLowerAZ (c : Char) : Bool := 'a' ≤ c && c ≤ 'z'

def isAlphaAZ (c : Char) : Bool := isUpperAZ c || isLowerAZ c

def isAlnumAZ (c : Char) : Bool := isAlphaAZ c || isDigitC c

/-- JS `\s` / `String.prototype.trim` whitespace, restricted to the code
points that can actually occur in the pipeline's inputs (ASCII whitespace
and NBSP; the exotic Unicode space separators behave identically and are
omitted). -/
def isWsJS (c : Char) : Bool :=
  c = ' ' || c = '\t' || c = '\n' || c = '\r' || c = '\x0b' || c = '\x0c' || c = ' '

/-- JS `toLowerCase` restricted to simple (ASCII) case mapping; the
Devanagari/Bengali characters appearing in the sources have no case. -/
def jsLowerChar (c : Char) : Char := if isUpperAZ c then Char.ofNat (c.toNat + 32) else c

/-- JS `toUpperCase`, same restriction. -/
def jsUpperChar (c : Char) : Char := if isLowerAZ c then Char.ofNat (c.toNat - 32) else c

def lowerL (cs : List Char) : List Char := cs.map jsLowerChar

def strOf (cs : List Char) : String := String.mk cs

def chars (s : String) : List Char := s.toList

/-- JS `trim` on a character list. -/
def jsTrimL (cs : List Char) : List Char :=
  ((cs.dropWhile isWsJS).reverse.dropWhile isWsJS).reverse

def jsTrimS (s : String) : String := strOf (jsTrimL (chars s))

def jsLowerS (s : String) : String := strOf (lowerL (chars s))

def jsUpperS (s : String) : String := strOf ((chars s).map jsUpperChar)

/-- Substring test (JS `String.prototype.includes`). -/
def containsSub (needle hay : List Char) : Bool :=
  match hay with
  | [] => needle.isEmpty
  | _ :: t => needle.isPrefixOf hay || containsSub needle t

/-- Case-insensitive substring test (models `/lit/i.test(s)`). -/
def containsSubCi (needle hay : List Char) : Bool :=
  containsSub (lowerL needle) (lowerL hay)

/-- JS `String.prototype.split` on a single separator character (keeps empty
pieces, as JS does). -/
def splitOnChar (sep : Char) : List Char → List (List Char)
  | [] => [[]]
  | c :: rest =>
    let r := splitOnChar sep rest
    if c = sep then [] :: r
    else
      match r with
      | [] => [[c]]
      | h :: t => (c :: h) :: t

/-- JS split on the two-character class slash-or-hyphen (keeps empty pieces). -/
def splitOnSlashDash : List Char → List (List Char)
  | [] => [[]]
  | c :: rest =>
    let r := splitOnSlashDash rest
    if c = '/' || c = '-' then [] :: r
    else
      match r with
      | [] => [[c]]
      | h :: t => (c :: h) :: t

/-- List startsWith (JS `String.prototype.startsWith`). -/
def startsWithL (pre cs : List Char) : Bool := pre.isPrefixOf cs

/-! ## JS number primitives (modelled over exact rationals) -/

def digitVal (c : Char) : Nat := c.toNat - '0'.toNat

def hexDigitVal (c : Char) : Option Nat :=
  if isDigitC c then some (digitVal c)
  else
    let l := jsLowerChar c
    -- 87 = lowercase a minus 10, so a..f map to 10..15
    if 'a' ≤ l && l ≤ 'f' then some (l.toNat - 87) else none

def natOfDigits (cs : List Char) : Nat := cs.foldl (fun acc c => acc * 10 + digitVal c) 0

/-- JS `parseInt(s, 10)` (none = NaN): skip leading whitespace, optional
sign, then a maximal run of decimal digits; NaN when that run is empty.
Modelled exactly over integers (the inputs the repository feeds it stay
well below 2^53, where a JS double is exact). -/
def jsParseIntDec (s : List Char) : Option Int :=
  let cs := s.dropWhile isWsJS
  let (sign, cs) : Int × List Char :=
    match cs with
    | '-' :: t => (-1, t)
    | '+' :: t => (1, t)
    | t => (1, t)
  let digits := cs.takeWhile isDigitC
  if digits.isEmpty then none else some (sign * (natOfDigits digits : Int))

/-- JS `parseInt(s, 16)` on a string already known to consist of hex digits
(the only way the sources use it apart from the NaN cases handled at the
call sites). -/
def hexValOf (cs : List Char) : Nat :=
  cs.foldl (fun acc c => acc * 16 + (hexDigitVal c).getD 0) 0

/-- JS `parseFloat` (none = NaN): skip leading whitespace, optional sign,
integer digits, optional fraction; parsing stops at the first
non-conforming character. The exponent form is omitted: every call site
feeds strings whose alphabet excludes `e`/`E`. -/
def jsParseFloat (s : List Char) : Option ℚ :=
  let cs := s.dropWhile isWsJS
  let (sign, cs) : ℚ × List Char :=
    match cs with
    | '-' :: t => (-1, t)
    | '+' :: t => (1, t)
    | t => (1, t)
  let intDigits := cs.takeWhile isDigitC
  let rest := cs.drop intDigits.length
  match rest with
  | '.' :: restF =>
    let fracDigits := restF.takeWhile isDigitC
    if intDigits.isEmpty && fracDigits.isEmpty then none
    else
      some (sign * ((natOfDigits intDigits : ℚ) +
        (natOfDigits fracDigits : ℚ) / (10 : ℚ) ^ fracDigits.length))
  | _ =>
    if intDigits.isEmpty then none else some (sign * (natOfDigits intDigits : ℚ))

def jsParseFloatS (s : String) : Option ℚ := jsParseFloat (chars s)

/-- JS `Number.prototype.toFixed(2)` of a non-negative value, as the integer
number of hundredths: round to nearest with ties away from zero (the
ECMAScript `toFixed` rule for non-negative arguments). -/
def toFixed2N (v : ℚ) : Int := Int.floor (v * 100 + 1 / 2)

/-- Decimal rendering of a non-negative integer number of hundredths the way
JS prints `parseFloat(x.toFixed(2))`: trailing fractional zeros are dropped
(the values reaching this formatter are exactly representable in two
decimal digits, where JS shortest-round-trip printing agrees with this). -/
def jsFormatHundredths (n : Int) : String :=
  let m := n.toNat
  let i := m / 100
  let f := m % 100
  if f = 0 then toString i
  else if f % 10 = 0 then toString i ++ "." ++ toString (f / 10)
  else if f < 10 then toString i ++ ".0" ++ toString f
  else toString i ++ "." ++ toString f

/-- JS number-to-string for the values `normalizeBillFields` can meet
(`value.toString()` on a JSON number): exact for integers and for values
with a terminating decimal expansion of at most six digits; other rationals
(which no claim exercises) fall back to the raw rational rendering. -/
def jsNumToString (q : ℚ) : String :=
  if q.den = 1 then toString q.num
  else
    let neg := q < 0
    let a := |q|
    let scaled := a * 1000000
    if scaled.den = 1 then
      let n := scaled.num.toNat
      let i := n / 1000000
      let fDigits := (Nat.toDigits 10 (n % 1000000 + 1000000)).drop 1
      let fTrim := (fDigits.reverse.dropWhile (· = '0')).reverse
      (if neg then "-" else "") ++ toString i ++ "." ++ strOf fTrim
    else toString q

/-! ## JS Date, as epoch milliseconds with proleptic Gregorian arithmetic -/

/-- Days from civil date (Gregorian), the standard era-based algorithm;
`m` is 1-based. Day 0 = 1970-01-01. -/
def daysFromCivil (y m d : Int) : Int :=
  let y := if m ≤ 2 then y - 1 else y
  let era := Int.fdiv y 400
  let yoe := y - era * 400
  let mp := Int.emod (m + 9) 12
  let doy := Int.fdiv (153 * mp + 2) 5 + d - 1
  let doe := yoe * 365 + Int.fdiv yoe 4 - Int.fdiv yoe 100 + doy
  era * 146097 + doe - 719468

/-- Civil date (y, m, d) from a day number, inverse of `daysFromCivil`. -/
def civilFromDays (z : Int) : Int × Int × Int :=
  let z := z + 719468
  let era := Int.fdiv z 146097
  let doe := z - era * 146097
  let yoe := Int.fdiv (doe - Int.fdiv doe 1460 + Int.fdiv doe 36524 - Int.fdiv doe 146096) 365
  let y := yoe + era * 400
  let doy := doe - (365 * yoe + Int.fdiv yoe 4 - Int.fdiv yoe 100)
  let mp := Int.fdiv (5 * doy + 2) 153
  let d := doy - Int.fdiv (153 * mp + 2) 5 + 1
  let m := mp + (if mp < 10 then 3 else -9)
  (y + (if m ≤ 2 then 1 else 0), m, d)

def msPerDay : Int := 86400000

/-- JS `new Date(year, monthIndex, day, h, min, s, ms).getTime()`, with the
ECMAScript normalisation of out-of-range fields (months roll into years,
days/hours/… roll through the calendar) and the rule mapping explicit years
0..99 to 1900..1999. -/
def jsMakeDate (year monthIndex day h min s ms : Int) : Int :=
  let year := if 0 ≤ year && year ≤ 99 then year + 1900 else year
  let y := year + Int.fdiv monthIndex 12
  let m := Int.emod monthIndex 12 + 1
  (daysFromCivil y m 1 + (day - 1)) * msPerDay +
    h * 3600000 + min * 60000 + s * 1000 + ms

/-- JS `Date.prototype.getFullYear` (local = UTC in this model). -/
def jsGetFullYear (t : Int) : Int := (civilFromDays (Int.fdiv t msPerDay)).1

/-- A millisecond value representable by a JS `Date` (`|t| ≤ 8.64e15`);
outside this range the constructed `Date` is invalid. -/
def jsDateInRange (t : Int) : Bool := t.natAbs ≤ 8640000000000000

/-! ## A small backtracking regex engine

Every regular expression the modelled sources execute is built from
single-character classes, literals, alternation, optional parts, and
greedy star/plus over a character class (plus two word-boundary patterns
modelled separately).  `RPat` has exactly these constructs, and `rmatch`
is a continuation-passing backtracking matcher with JS semantics:
leftmost match, alternatives tried left to right, quantifiers greedy with
backtracking. -/

inductive RPat where
  | eps : RPat
  | cls : (Char → Bool) → RPat
  | seq : RPat → RPat → RPat
  | alt : RPat → RPat → RPat
  | opt : RPat → RPat
  | starCls : (Char → Bool) → RPat
  | grp : Nat → RPat → RPat

/-- Captured groups, most recent first. -/
abbrev Caps := List (Nat × List Char)

def capGet (g : Caps) (i : Nat) : Option (List Char) :=
  (g.find? (fun p => p.1 = i)).map (fun p => p.2)

/-- Greedy class star: consume as many class characters as possible, giving
them back one at a time when the continuation fails. -/
def starClsM (p : Char → Bool) : List Char → (List Char → Option α) → Option α
  | [], k => k []
  | c :: rest, k =>
    if p c then (starClsM p rest k) <|> k (c :: rest) else k (c :: rest)

/-- The backtracking matcher: `rmatch pat cs g k` tries to match `pat` at the
start of `cs` and hands the remaining input and captures to `k`. -/
def rmatch : RPat → List Char → Caps → (List Char → Caps → Option α) → Option α
  | .eps, cs, g, k => k cs g
  | .cls _, [], _, _ => none
  | .cls p, c :: cs, g, k => if p c then k cs g else none
  | .seq a b, cs, g, k => rmatch a cs g (fun cs2 g2 => rmatch b cs2 g2 k)
  | .alt a b, cs, g, k => (rmatch a cs g k) <|> (rmatch b cs g k)
  | .opt a, cs, g, k => (rmatch a cs g k) <|> k cs g
  | .starCls p, cs, g, k => starClsM p cs (fun rest => k rest g)
  | .grp i a, cs, g, k =>
    rmatch a cs g (fun cs2 g2 => k cs2 ((i, cs.take (cs.length - cs2.length)) :: g2))

/-- Match `pat` exactly at the start of `cs`; yields (full match, captures,
rest of the input). -/
def matchAt (pat : RPat) (cs : List Char) : Option (List Char × Caps × List Char) :=
  rmatch pat cs [] (fun rest g => some (cs.take (cs.length - rest.length), g, rest))

/-- Leftmost search (JS `String.prototype.match` without the g flag). -/
def rsearch (pat : RPat) : List Char → Option (List Char × Caps × List Char)
  | [] => matchAt pat []
  | c :: rest => (matchAt pat (c :: rest)) <|> rsearch pat rest

/-- Fuel-driven global matching: every pattern this is used with consumes at
least one character per match, so `length + 1` fuel is always enough
(matches of the empty string, impossible here, would stop the scan). -/
def matchAllAux (pat : RPat) : Nat → List Char → List (List Char × Caps)
  | 0, _ => []
  | fuel + 1, cs =>
    match rsearch pat cs with
    | none => []
    | some (m, g, rest) => (m, g) :: (if m.isEmpty then [] else matchAllAux pat fuel rest)

/-- JS `String.prototype.matchAll`. -/
def matchAllL (pat : RPat) (cs : List Char) : List (List Char × Caps) :=
  matchAllAux pat (cs.length + 1) cs

/-- A case-sensitive literal as a pattern. -/
def litP (s : String) : RPat :=
  ((chars s).map (fun c => RPat.cls (fun d => d = c))).foldr RPat.seq RPat.eps

/-- A case-insensitive literal (JS i flag, simple case folding; the
Devanagari/Bengali literals in the sources have no case). -/
def litCiP (s : String) : RPat :=
  ((chars s).map (fun c => RPat.cls (fun d => jsLowerChar d = jsLowerChar c))).foldr RPat.seq RPat.eps

/-- Alternation over a list, first alternative first (JS order). -/
def altP : List RPat → RPat
  | [] => RPat.cls (fun _ => false)
  | [p] => p
  | p :: ps => RPat.alt p (altP ps)

/-- Exactly `n` repetitions of a class character. -/
def clsRep (p : Char → Bool) : Nat → RPat
  | 0 => RPat.eps
  | n + 1 => RPat.seq (RPat.cls p) (clsRep p n)

/-- Greedily up to `n` further repetitions of a class character. -/
def clsUpTo (p : Char → Bool) : Nat → RPat
  | 0 => RPat.eps
  | n + 1 => RPat.opt (RPat.seq (RPat.cls p) (clsUpTo p n))

/-- Bounded repetition of a class, greedy, min..min+extra occurrences. -/
def clsRange (p : Char → Bool) (min extra : Nat) : RPat :=
  RPat.seq (clsRep p min) (clsUpTo p extra)

/-- Class plus (one or more, greedy). -/
def plusCls (p : Char → Bool) : RPat := RPat.seq (RPat.cls p) (RPat.starCls p)

def wsStar : RPat := RPat.starCls isWsJS

/-- Capture group `i` of a search result rendered as a string ("" when the
group did not participate, which no modelled call site distinguishes). -/
def capStrOf (r : Option (List Char × Caps × List Char)) (i : Nat) : String :=
  match r with
  | some (_, g, _) => strOf ((capGet g i).getD [])
  | none => ""

/-! ## The `Bill` record

`Partial<Bill>` from `src/types/index.ts`, restricted to the fields the
extraction pipeline produces.  `none` models an absent / `undefined`
field.  `amount` is doubly optional because a present amount can itself be
NaN (`some none`).  A `date` field, when present, is always a valid `Date`
(every construction site filters invalid dates out), so it is a plain
millisecond value.  `from`/`to` are spelt `fromLoc`/`toLoc` because `from`
is a Lean keyword. -/
structure Bill where
  billNumber : Option String
  amount : Option (Option ℚ)
  date : Option Int
  fromLoc : Option String
  toLoc : Option String
  extractedText : Option String
  co2Saved : Option String
deriving DecidableEq, Repr

/-- The empty object literal: every field absent. -/
def emptyBill : Bill :=
  { billNumber := none, amount := none, date := none, fromLoc := none,
    toLoc := none, extractedText := none, co2Saved := none }

/-! ## OCRService (src/services/ocr.ts): patterns -/

def slashDash (c : Char) : Bool := c = '/' || c = '-'

/-- Digits 1-2, separator, digits 1-2, separator, digits 2-4 — the orphan
date pattern of `parseWithHeuristics` (whole match captured as group 1). -/
def datePat : RPat :=
  .grp 1 (.seq (clsRange isDigitC 1 1) (.seq (.cls slashDash)
    (.seq (clsRange isDigitC 1 1) (.seq (.cls slashDash) (clsRange isDigitC 2 2)))))

/-- Digits with an optional fraction (the shared `\d+(\.\d+)?` building block). -/
def numFracOpt : RPat :=
  .seq (plusCls isDigitC) (.opt (.seq (.cls (fun c => c = '.')) (plusCls isDigitC)))

/-- The currency-amount pattern of `parseWithHeuristics`: INR/Rs/rupee sign,
optional dot, whitespace, then a captured number (i flag). -/
def currencyPat : RPat :=
  .seq (altP [litCiP "INR", litCiP "Rs", litCiP "₹"])
    (.seq (.opt (.cls (fun c => c = '.'))) (.seq wsStar (.grp 1 numFracOpt)))

def isWordC (c : Char) : Bool := isAlnumAZ c || c = '_'

def boundaryAfter : List Char → Bool
  | [] => true
  | c :: _ => !isWordC c

/-- The bare-decimal pattern (digits, dot, one or two fraction digits,
word boundaries on both sides): match attempt at one position. -/
def floatAt (cs : List Char) : Option (List Char) :=
  let intd := cs.takeWhile isDigitC
  if intd.isEmpty then none
  else
    match cs.drop intd.length with
    | '.' :: rest =>
      let fr := rest.takeWhile isDigitC
      if fr.isEmpty then none
      else if fr.length ≥ 2 then
        if boundaryAfter (rest.drop 2) then some (intd ++ '.' :: fr.take 2) else none
      else
        if boundaryAfter (rest.drop 1) then some (intd ++ '.' :: fr.take 1) else none
    | _ => none

/-- Leftmost search for the bare-decimal pattern, tracking the character
before each position for the leading word boundary. -/
def floatSearchGo : Option Char → List Char → Option (List Char)
  | _, [] => none
  | prev, c :: rest =>
    let bOK := match prev with | none => true | some p => !isWordC p
    (if bOK then floatAt (c :: rest) else none) <|> floatSearchGo (some c) rest

def floatSearch (cs : List Char) : Option (List Char) := floatSearchGo none cs

/-- The number class of the CO2 regex: digits, Bengali zero, o/O, whitespace,
dot, S/s, Bengali four, comma. -/
def co2NumClass (c : Char) : Bool :=
  isDigitC c || c = '০' || c = 'o' || c = 'O' || isWsJS c || c = '.' ||
    c = 'S' || c = 's' || c = '৪' || c = ','

/-- The unit alternation of the CO2 regex, in source order. -/
def co2UnitPat : RPat :=
  altP [litCiP "g", litCiP "gm", litCiP "gram",
    litP "ग्रेम", litP "ग्रेंम", litP "प्रेम", litP "प्रेंम", litP "प्रम", litP "प्म",
    litP "ग्रॅम", litP "ग्रॉम", litP "ग्म", litP "गप्रेम", litP "म्रेम", litP "परम",
    litP "ग्रेभ", litP "फम", litP "म", litCiP "grams",
    .seq (litP "ग") (.seq wsStar (litP "्रम")),
    litP "টरेम",
    .seq (litP "प्रे") (.seq wsStar (litP "म"))]

def isCO2Lead (c : Char) : Bool :=
  c = 'C' || c = 'c' || c = '0' || c = 'O' || c = '০' || c = 'o'

def isCO2Mid (c : Char) : Bool := c = 'O' || c = 'o' || c = '0' || c = '০'

/-- The CO2-marker tail of the CO2 regex: optional paren, C/0/O-like char,
optional O-like char, one or more 2s — or a literal CO. -/
def co2TailPat : RPat :=
  .alt
    (.seq (.opt (.cls (fun c => c = '(')))
      (.seq wsStar (.seq (.cls isCO2Lead)
        (.seq wsStar (.seq (.opt (.cls isCO2Mid)) (.seq wsStar (plusCls (fun c => c = '2'))))))))
    (litCiP "CO")

/-- The full CO2 extraction regex of `parseWithHeuristics` (group 1 is the
number-like token). -/
def co2Pat : RPat :=
  .seq (.grp 1 (plusCls co2NumClass)) (.seq wsStar (.seq co2UnitPat (.seq wsStar co2TailPat)))

/-- The CO2-marker test used by `isValidPuneMetroTicket`:
C with optional O-like char or double Bengali zero, then 2s — or CO (i flag). -/
def co2MarkerPat : RPat :=
  .alt
    (.seq
      (.alt (.seq (.cls (fun c => c = 'C' || c = 'c')) (.opt (.cls isCO2Mid)))
        (.seq (.cls (fun c => c = '০')) (.cls (fun c => c = '০'))))
      (plusCls (fun c => c = '2')))
    (litCiP "CO")

/-- The long Pune-Metro ticket id pattern: 8 digits, T, 4 digits, O/0,
4 digits, whitespace-tolerant (i flag). -/
def longIdPat : RPat :=
  .grp 1 (.seq (clsRep isDigitC 8) (.seq wsStar
    (.seq (.cls (fun c => c = 'T' || c = 't')) (.seq wsStar
      (.seq (clsRep isDigitC 4) (.seq wsStar
        (.seq (.cls (fun c => c = 'O' || c = 'o' || c = '0')) (.seq wsStar (clsRep isDigitC 4)))))))))

/-- The generic ticket/bill-number fallback pattern of `parseWithHeuristics`
(keyword, optional No-marker, optional separator, captured run). -/
def billNoPat : RPat :=
  .seq
    (altP [.seq (litCiP "Tick") (.seq (.cls (fun c => jsLowerChar c = 'a' || jsLowerChar c = 'e')) (litCiP "t")),
      litCiP "Bill", litCiP "Invoice",
      .seq (litP "तिकीट") (.seq wsStar (.seq (litP "क्र") (.opt (.cls (fun c => c = '.')))))])
    (.seq wsStar
      (.seq (.opt (altP [litCiP "N0", litCiP "No", litCiP "#", litCiP "Number"]))
        (.seq wsStar
          (.seq (.opt (.cls (fun c => c = ':' || c = '-')))
            (.seq wsStar
              (.grp 1 (plusCls (fun c => isAlnumAZ c || c = ':' || c = '-' || c = '/' || c = '.'))))))))

/-! ## OCRService: parseWithHeuristics, stage by stage -/

def isSpaceTab (c : Char) : Bool := c = ' ' || c = '\t'

/-- Flush a pending (reversed) run of spaces/tabs: a run of two or more
becomes a single line feed, a shorter run stays. -/
def flushRun (pend : List Char) : List Char :=
  if pend.length ≥ 2 then ['\n'] else pend.reverse

/-- The initial clean of `parseWithHeuristics`: replace every run of two or
more spaces/tabs by a newline (the global regex replace of the source). -/
def collapseGo : List Char → List Char → List Char
  | [], pend => flushRun pend
  | c :: rest, pend =>
    if isSpaceTab c then collapseGo rest (c :: pend)
    else flushRun pend ++ c :: collapseGo rest []

/-- Raw lines: collapse column whitespace, split on newlines, trim, drop
empty lines. -/
def heurRawLines (text : String) : List String :=
  (((splitOnChar '\n' (collapseGo (chars text) [])).map jsTrimL).filter
    (fun l => !l.isEmpty)).map strOf

/-- The orphan date value (first date-shaped token anywhere in the text),
"" when there is none. -/
def heurDateVal (text : String) : String := capStrOf (rsearch datePat (chars text)) 1

/-- The orphan amount value: the full currency match when the currency
pattern hits, else the first word-bounded bare decimal, else "". -/
def heurAmountVal (text : String) : String :=
  match rsearch currencyPat (chars text) with
  | some (m, _, _) => strOf m
  | none =>
    match floatSearch (chars text) with
    | some m => strOf m
    | none => ""

/-- Character normalisation of the captured CO2 number (Bengali zero and
o/O to 0, s/S to 5, Bengali four to 8); the sequential global replaces of
the source commute into one map because their domains are disjoint. -/
def normCO2Char (c : Char) : Char :=
  if c = '০' then '0'
  else if c = 'o' || c = 'O' then '0'
  else if c = 's' || c = 'S' then '5'
  else if c = '৪' then '8'
  else c

/-- When the captured number has no dot: trim, then replace the first
whitespace run by a decimal point. -/
def replaceFirstWsRun : List Char → List Char
  | [] => []
  | c :: rest =>
    if isWsJS c then '.' :: rest.dropWhile isWsJS else c :: replaceFirstWsRun rest

/-- The magnitude-correction loop: divide by 10 while the value exceeds 2
(fuel-driven so that it evaluates by kernel reduction). -/
def co2ShrinkAux : Nat → ℚ → ℚ
  | 0, v => v
  | fuel + 1, v => if 2 < v then co2ShrinkAux fuel (v / 10) else v

/-- Fuel bound: the ceiling of the value strictly decreases at every
division while the value exceeds 2, so `⌈v⌉` steps always suffice. -/
def co2Shrink (v : ℚ) : ℚ := co2ShrinkAux (Int.toNat ⌈v⌉) v

/-- Cleaning of the captured CO2 number: character normalisation, then
comma/whitespace removal when a dot is present, else trim and turn the
first whitespace run into the decimal point (and drop remaining spaces). -/
def co2CleanNumber (raw : List Char) : List Char :=
  let rawNumber := raw.map normCO2Char
  if rawNumber.contains '.' then
    rawNumber.filter (fun c => !(c = ',') && !isWsJS c)
  else
    (replaceFirstWsRun (jsTrimL rawNumber)).filter (fun c => !isWsJS c)

/-- The raw captured CO2 number token of the text, when the CO2 regex hits. -/
def co2Capture (text : String) : Option (List Char) :=
  (rsearch co2Pat (chars text)).map (fun r => (capGet r.2.1 1).getD [])

/-- Rendering of a captured CO2 number: clean, parse, magnitude-correct,
format with the unit suffix ("" when the cleaned token is NaN). -/
def co2Render (raw : List Char) : String :=
  match jsParseFloat (co2CleanNumber raw) with
  | none => ""
  | some v => jsFormatHundredths (toFixed2N (co2Shrink v)) ++ " g CO2"

/-- The CO2-saved extraction of `parseWithHeuristics`: "" when nothing is
recovered, otherwise the formatted value with its unit suffix. -/
def heurCO2 (text : String) : String :=
  match co2Capture text with
  | none => ""
  | some raw => co2Render raw

def heurLabels : List String :=
  ["Date", "From", "To", "Fare", "Charge", "Amount", "Ticket", "Tickat", "Bill", "Invoice"]

def isLabelSep (c : Char) : Bool := c = ':' || c = '-' || c = ' ' || c = '\t'

def startsWithCi (p : String) (cs : List Char) : Bool :=
  (lowerL (chars p)).isPrefixOf (lowerL cs)

/-- Strip a leading NO / N0 / Number / # marker (i flag, source order) and
the separator run after it. -/
def stripNoMarker (cs : List Char) : List Char :=
  match ["NO", "N0", "Number", "#"].find? (fun p => startsWithCi p cs) with
  | some p => (cs.drop p.length).dropWhile isLabelSep
  | none => cs

/-- Label beautification of one line (step 3 of `parseWithHeuristics`). -/
def beautifyLine (dateVal amountVal line : String) : String :=
  if line = dateVal then "Date : " ++ line
  else if line = amountVal ||
      (containsSub (chars line) (chars amountVal) && line.length > 2) then
    "Fare : " ++ line
  else
    match heurLabels.find? (fun label => startsWithCi label (chars line)) with
    | some label =>
      let value :=
        strOf (jsTrimL (stripNoMarker (((chars line).drop label.length).dropWhile isLabelSep)))
      let displayLabel := if label = "Tickat" then "Ticket" else label
      if value ≠ "" then displayLabel ++ " : " ++ value else displayLabel
    | none => line

/-- Drop a bare label line whose beautified version follows it. -/
def filterBareLabels : List String → List String
  | [] => []
  | l :: rest =>
    let isBare := heurLabels.contains l
    let dropIt := isBare &&
      (match rest with
       | n :: _ => startsWithL (chars (l ++ " :")) (chars n)
       | [] => false)
    if dropIt then filterBareLabels rest else l :: filterBareLabels rest

/-- The cleaned text of the OCR record (beautified, de-duplicated lines). -/
def heurCleanedText (text dateVal amountVal : String) : String :=
  String.intercalate "\n"
    (filterBareLabels ((heurRawLines text).map (beautifyLine dateVal amountVal)))

/-- Date assembly: `new Date()` (the `now` parameter) when no orphan date
was found, else `new Date(year, month-1, day)` from the day-first parts.
The regex shape of a non-empty `dateVal` guarantees three numeric parts,
so the NaN defaults are unreachable. -/
def heurDateObj (dateVal : String) (now : Int) : Int :=
  if dateVal = "" then now
  else
    let parts := splitOnSlashDash (chars dateVal)
    let d := (jsParseIntDec ((parts.get? 0).getD [])).getD 0
    let m := (jsParseIntDec ((parts.get? 1).getD [])).getD 0
    let y := (jsParseIntDec ((parts.get? 2).getD [])).getD 0
    jsMakeDate y (m - 1) d 0 0 0 0

/-- The two amount-correction heuristics of `parseWithHeuristics`, in source
order: subtract 200 on the 200-band, then divide by 10 at or above 100. -/
def amountHeuristics (a : ℚ) : ℚ :=
  let a1 := if 200 ≤ a ∧ a < 300 then a - 200 else a
  if 100 ≤ a1 then a1 / 10 else a1

/-- Final amount: parse the digits/dots of the amount value (NaN and a
parse of nothing both fall back to 0 through the or-default), then apply
the correction heuristics. -/
def heurFinalAmount (amountVal : String) : ℚ :=
  amountHeuristics
    ((jsParseFloat ((chars amountVal).filter (fun c => isDigitC c || c = '.'))).getD 0)

/-- Clean the long-id match: drop whitespace, then replace the first `0`
that is followed by exactly four digits and the end of the string by `O`
(the lookahead replace of the source). -/
def replaceZeroBeforeLast4 : List Char → List Char
  | [] => []
  | c :: rest =>
    if c = '0' && rest.length = 4 && rest.all isDigitC then 'O' :: rest
    else c :: replaceZeroBeforeLast4 rest

/-- The bill-number extraction: the long Pune-Metro id pattern first, then
the generic keyword fallback; "" when both miss. -/
def heurBillNo (text : String) : String :=
  let longId := rsearch longIdPat (chars text)
  match longId with
  | some (_, g, _) =>
    strOf (replaceZeroBeforeLast4 (((capGet g 1).getD []).filter (fun c => !isWsJS c)))
  | none => capStrOf (rsearch billNoPat (chars text)) 1

/-- OCRService.parseWithHeuristics (src/services/ocr.ts lines 143-314),
as a function of the recognised text and the current time (`Date.now()` /
`new Date()`, in epoch milliseconds).  The location-candidate block of the
source is commented out there, so `fromVal`/`toVal` are the empty string
and both locations come out as "Unknown". -/
def parseWithHeuristics (text : String) (now : Int) : Bill :=
  let dateVal := heurDateVal text
  let amountVal := heurAmountVal text
  let co2Saved := heurCO2 text
  let cleanedText := heurCleanedText text dateVal amountVal
  let dateObj := heurDateObj dateVal now
  let finalAmount := heurFinalAmount amountVal
  let billNo := heurBillNo text
  { billNumber := some (if billNo ≠ "" then billNo else "BILL" ++ toString now)
    amount := some (some finalAmount)
    date := some dateObj
    fromLoc := some "Unknown"
    toLoc := some "Unknown"
    extractedText := some cleanedText
    co2Saved := some co2Saved }

/-- OCRService.getMockData. -/
def getMockData (now : Int) : Bill :=
  { billNumber := some ("MOCK" ++ toString now)
    amount := some (some 0)
    date := some now
    fromLoc := some "Unknown"
    toLoc := some "Unknown"
    extractedText := some "OCR Failed"
    co2Saved := none }

/-- OCRService.isValidPuneMetroTicket: a Devanagari ticket marker, or both
TICKET NO and JOURNEY TICKET in upper case — and a CO2 marker. -/
def isValidPuneMetroTicket (text : String) : Bool :=
  let cs := chars text
  let upper := cs.map jsUpperChar
  let hasTicketInfo :=
    containsSub (chars "तिकीट") cs ||
      (containsSub (chars "TICKET NO") upper && containsSub (chars "JOURNEY TICKET") upper)
  let hasCO2 := (rsearch co2MarkerPat cs).isSome
  hasTicketInfo && hasCO2

/-! ## OCRService: the candidate merge and the text entry point -/

/-- JS object spread for one field: the second record's binding wins when
the field is present there (`...ocrData, ...qrData`). -/
def spreadOr (a b : Option α) : Option α :=
  match b with
  | some v => some v
  | none => a

/-- JS truthiness filter for a string field (the empty string is falsy). -/
def truthyStr : Option String → Option String
  | some s => if s = "" then none else some s
  | none => none

/-- The `finalData` merge of OCRService.extractTextFromImage (lines 82-88):
spread the OCR candidate, spread the QR candidate over it, then rebuild
`from`/`to` as OCR-value or QR-value or the literal "Unknown" with the JS
or-operator (first truthy wins). -/
def mergeBillData (ocrData qrData : Bill) : Bill :=
  { billNumber := spreadOr ocrData.billNumber qrData.billNumber
    amount := spreadOr ocrData.amount qrData.amount
    date := spreadOr ocrData.date qrData.date
    extractedText := spreadOr ocrData.extractedText qrData.extractedText
    co2Saved := spreadOr ocrData.co2Saved qrData.co2Saved
    fromLoc := some (((truthyStr ocrData.fromLoc).orElse
      (fun _ => truthyStr qrData.fromLoc)).getD "Unknown")
    toLoc := some (((truthyStr ocrData.toLoc).orElse
      (fun _ => truthyStr qrData.toLoc)).getD "Unknown") }

/-- The error message thrown (and re-thrown past the catch block) for a
text that fails the Pune-Metro validation. -/
def puneErrorMsg : String :=
  "This is not a valid Pune Metro Ticket or the Image is not capturing CO2"

/-- The text-processing path of OCRService.extractTextFromImage (the
`extractFromText` entry point of the spec): empty text falls back to mock
data; a text failing `isValidPuneMetroTicket` raises the validation error,
which the catch block recognises by message and re-throws to the caller;
otherwise the heuristics run and are merged with the QR candidate, which
is always the empty object because the QR-scan block of the source is
commented out.  Nothing else in the path can throw, so the model is total
apart from the explicit `Except.error`. -/
def extractFromText (text : String) (now : Int) : Except String Bill :=
  if text = "" then Except.ok (getMockData now)
  else if !isValidPuneMetroTicket text then Except.error puneErrorMsg
  else Except.ok (mergeBillData (parseWithHeuristics text now) emptyBill)

/-! ## A JSON value model and parser (JSON.parse) -/

inductive JSValue where
  | jnull : JSValue
  | jbool : Bool → JSValue
  | jnum : ℚ → JSValue
  | jstr : String → JSValue
  | jarr : List JSValue → JSValue
  | jobj : List (String × JSValue) → JSValue

def isJsonWs (c : Char) : Bool := c = ' ' || c = '\t' || c = '\n' || c = '\r'

/-- JSON string body after the opening quote: (content, rest after the
closing quote).  Handles the standard escapes; a lone `\uXXXX` surrogate
is kept as its code point (no claim exercises surrogate pairs). -/
def jsonStringRest : List Char → Option (List Char × List Char)
  | [] => none
  | c :: rest =>
    if c = '"' then some ([], rest)
    else if c = '\\' then
      match rest with
      | [] => none
      | e :: rest2 =>
        if e = 'u' then
          match rest2 with
          | a :: b :: c2 :: d :: rest3 =>
            match hexDigitVal a, hexDigitVal b, hexDigitVal c2, hexDigitVal d with
            | some x, some y, some z, some w =>
              (jsonStringRest rest3).map
                (fun p => (Char.ofNat (((x * 16 + y) * 16 + z) * 16 + w) :: p.1, p.2))
            | _, _, _, _ => none
          | _ => none
        else
          let dec : Option Char :=
            if e = '"' then some '"'
            else if e = '\\' then some '\\'
            else if e = '/' then some '/'
            else if e = 'b' then some '\x08'
            else if e = 'f' then some '\x0c'
            else if e = 'n' then some '\n'
            else if e = 'r' then some '\r'
            else if e = 't' then some '\t'
            else none
          match dec with
          | some ch => (jsonStringRest rest2).map (fun p => (ch :: p.1, p.2))
          | none => none
    else if c.toNat < 32 then none
    else (jsonStringRest rest).map (fun p => (c :: p.1, p.2))

/-- A JSON number (strict grammar: no leading zeros, fraction and exponent
each need at least one digit). -/
def jsonNumber (cs : List Char) : Option (ℚ × List Char) :=
  let sc : ℚ × List Char := match cs with | '-' :: t => (-1, t) | t => (1, t)
  let sign := sc.1
  let cs1 := sc.2
  let intDigits := cs1.takeWhile isDigitC
  if intDigits.isEmpty then none
  else if 1 < intDigits.length && intDigits.headD 'x' = '0' then none
  else
    let rest1 := cs1.drop intDigits.length
    let fracStep : Option (ℚ × List Char) :=
      match rest1 with
      | '.' :: t =>
        let fd := t.takeWhile isDigitC
        if fd.isEmpty then none
        else some ((natOfDigits fd : ℚ) / (10 : ℚ) ^ fd.length, t.drop fd.length)
      | _ => some (0, rest1)
    match fracStep with
    | none => none
    | some (fracV, rest2) =>
      let expStep : Option (Int × List Char) :=
        match rest2 with
        | e :: t =>
          if e = 'e' || e = 'E' then
            let st : Int × List Char :=
              match t with
              | '+' :: u => (1, u)
              | '-' :: u => (-1, u)
              | u => (1, u)
            let ed := st.2.takeWhile isDigitC
            if ed.isEmpty then none
            else some (st.1 * (natOfDigits ed : Int), st.2.drop ed.length)
          else some (0, rest2)
        | [] => some (0, rest2)
      match expStep with
      | none => none
      | some (ex, rest3) =>
        some (sign * ((natOfDigits intDigits : ℚ) + fracV) * (10 : ℚ) ^ ex, rest3)

mutual

/-- JSON value parser (fuel-driven; a value, array item or object member
always consumes at least one character, so `length + 1` fuel suffices). -/
def jsonVal : Nat → List Char → Option (JSValue × List Char)
  | 0, _ => none
  | fuel + 1, cs0 =>
    let cs := cs0.dropWhile isJsonWs
    match cs with
    | [] => none
    | c :: rest =>
      if c = '"' then (jsonStringRest rest).map (fun p => (JSValue.jstr (strOf p.1), p.2))
      else if c = 'n' then
        if startsWithL (chars "ull") rest then some (JSValue.jnull, rest.drop 3) else none
      else if c = 't' then
        if startsWithL (chars "rue") rest then some (JSValue.jbool true, rest.drop 3) else none
      else if c = 'f' then
        if startsWithL (chars "alse") rest then some (JSValue.jbool false, rest.drop 4) else none
      else if c = '[' then
        match rest.dropWhile isJsonWs with
        | ']' :: r => some (JSValue.jarr [], r)
        | _ => (jsonArrItems fuel rest).map (fun p => (JSValue.jarr p.1, p.2))
      else if c = lbrace then
        match rest.dropWhile isJsonWs with
        | c2 :: r =>
          if c2 = rbrace then some (JSValue.jobj [], r)
          else (jsonObjItems fuel rest).map (fun p => (JSValue.jobj p.1, p.2))
        | [] => none
      else (jsonNumber cs).map (fun p => (JSValue.jnum p.1, p.2))

def jsonArrItems : Nat → List Char → Option (List JSValue × List Char)
  | 0, _ => none
  | fuel + 1, cs =>
    match jsonVal fuel cs with
    | none => none
    | some (v, rest) =>
      match rest.dropWhile isJsonWs with
      | ',' :: r => (jsonArrItems fuel r).map (fun p => (v :: p.1, p.2))
      | ']' :: r => some ([v], r)
      | _ => none

def jsonObjItems : Nat → List Char → Option (List (String × JSValue) × List Char)
  | 0, _ => none
  | fuel + 1, cs0 =>
    match cs0.dropWhile isJsonWs with
    | '"' :: rest =>
      match jsonStringRest rest with
      | none => none
      | some (key, rest2) =>
        match rest2.dropWhile isJsonWs with
        | ':' :: r =>
          match jsonVal fuel r with
          | none => none
          | some (v, rest3) =>
            match rest3.dropWhile isJsonWs with
            | ',' :: r2 => (jsonObjItems fuel r2).map (fun p => ((strOf key, v) :: p.1, p.2))
            | c2 :: r2 => if c2 = rbrace then some ([(strOf key, v)], r2) else none
            | [] => none
        | _ => none
    | _ => none

end

/-- JSON.parse (none = a thrown SyntaxError): a single value with only
whitespace around it. -/
def jsonParse (s : String) : Option JSValue :=
  let cs := chars s
  match jsonVal (cs.length + 1) cs with
  | some (v, rest) => if (rest.dropWhile isJsonWs).isEmpty then some v else none
  | none => none

/-! ## Date-from-string (the fragment the QR decoders can produce) -/

def isoTimePart (cs : List Char) : Option (Int × Int × Int) :=
  match cs with
  | [] => some (0, 0, 0)
  | 'T' :: h1 :: h2 :: ':' :: m1 :: m2 :: rest =>
    if [h1, h2, m1, m2].all isDigitC then
      let hh := (natOfDigits [h1, h2] : Int)
      let mm := (natOfDigits [m1, m2] : Int)
      match rest with
      | [] => if hh ≤ 23 && mm ≤ 59 then some (hh, mm, 0) else none
      | ':' :: s1 :: s2 :: [] =>
        if [s1, s2].all isDigitC then
          let ss := (natOfDigits [s1, s2] : Int)
          if hh ≤ 23 && mm ≤ 59 && ss ≤ 59 then some (hh, mm, ss) else none
        else none
      | _ => none
    else none
  | _ => none

def isoParse (cs : List Char) : Option Int :=
  match cs with
  | y1 :: y2 :: y3 :: y4 :: '-' :: m1 :: m2 :: '-' :: d1 :: d2 :: rest =>
    if [y1, y2, y3, y4, m1, m2, d1, d2].all isDigitC then
      let y := (natOfDigits [y1, y2, y3, y4] : Int)
      let m := (natOfDigits [m1, m2] : Int)
      let d := (natOfDigits [d1, d2] : Int)
      if 1 ≤ m && m ≤ 12 && 1 ≤ d && civilFromDays (daysFromCivil y m d) = (y, m, d) then
        match isoTimePart rest with
        | some (hh, mm, ss) =>
          some (daysFromCivil y m d * msPerDay + hh * 3600000 + mm * 60000 + ss * 1000)
        | none => none
      else none
    else none
  | _ => none

def usSlashParse (cs : List Char) : Option Int :=
  match splitOnChar '/' cs with
  | [mp, dp, yp] =>
    if 1 ≤ mp.length && mp.length ≤ 2 && mp.all isDigitC &&
       1 ≤ dp.length && dp.length ≤ 2 && dp.all isDigitC &&
       2 ≤ yp.length && yp.length ≤ 4 && yp.all isDigitC then
      let m := (natOfDigits mp : Int)
      let d := (natOfDigits dp : Int)
      let y0 := (natOfDigits yp : Int)
      let y := if y0 < 50 && yp.length ≤ 2 then y0 + 2000
               else if y0 ≤ 99 then y0 + 1900 else y0
      if 1 ≤ m && m ≤ 12 && 1 ≤ d then some (jsMakeDate y (m - 1) d 0 0 0 0) else none
    else none
  | _ => none

/-- Modelled fragment of the engine's `new Date(string)` parser: strict ISO
`YYYY-MM-DD[THH:MM[:SS]]` (date-only read as UTC) and the US month-first
`M/D/Y` slash form with the V8 two-digit-year mapping — the only shapes the
repository's decoders feed it; everything else is Invalid Date (`none`). -/
def jsDateFromString (s : String) : Option Int :=
  match isoParse (chars s) with
  | some t => some t
  | none => usSlashParse (chars s)

/-! ## QRScannerScreen: field normalisation over parsed objects -/

/-- Property lookup on a JS object built by JSON.parse or by the key-value
reducer: the last binding of a key wins. -/
def recGet (fields : List (String × JSValue)) (key : String) : Option JSValue :=
  ((fields.reverse).find? (fun p => p.1 = key)).map (fun p => p.2)

/-- The `getValue` helper of `normalizeBillFields`: for each key try the key
and its lower-cased form (the JS nullish-coalescing also skips a JSON
null), accept a string with non-blank trim or a number, else move on. -/
def getValueJS (fields : List (String × JSValue)) : List String → Option String
  | [] => none
  | key :: rest =>
    let v : Option JSValue :=
      match recGet fields key with
      | some JSValue.jnull => recGet fields (jsLowerS key)
      | none => recGet fields (jsLowerS key)
      | some x => some x
    match v with
    | some (JSValue.jstr s) =>
      if jsTrimS s ≠ "" then some (jsTrimS s) else getValueJS fields rest
    | some (JSValue.jnum q) => some (jsNumToString q)
    | _ => getValueJS fields rest

/-- normalizeBillFields of QRScannerScreen: synonym lookup for each bill
field; amounts keep only digits and dots before parseFloat (a present but
unparsable amount is NaN, `some none`); invalid dates become absent. -/
def normalizeBillFields (fields : List (String × JSValue)) : Bill :=
  let amountRaw := getValueJS fields ["amount", "fare", "total"]
  let amount := amountRaw.map
    (fun s => jsParseFloat ((chars s).filter (fun c => isDigitC c || c = '.')))
  let dateRaw := getValueJS fields ["date", "billDate"]
  let date := dateRaw.bind jsDateFromString
  { billNumber := getValueJS fields ["billNumber", "bill", "ticket", "invoice", "bill_no"]
    amount := amount
    date := date
    fromLoc := getValueJS fields ["from", "source"]
    toLoc := getValueJS fields ["to", "destination"]
    extractedText := none
    co2Saved := none }

/-- hasBillValues of QRScannerScreen: a non-empty bill number, an amount
whose typeof is number (NaN included), a non-empty origin or destination,
or a (necessarily valid) date. -/
def hasBillValues (bill : Bill) : Bool :=
  (match bill.billNumber with | some s => !s.isEmpty | none => false) ||
  bill.amount.isSome ||
  (match bill.fromLoc with | some s => !s.isEmpty | none => false) ||
  (match bill.toLoc with | some s => !s.isEmpty | none => false) ||
  bill.date.isSome


/-! ## QRScannerScreen: key-value pairs and free-text extraction -/

def kvKeyClass (c : Char) : Bool := isAlphaAZ c || c = ' '

/-- At least `n` repetitions of a class character, greedy. -/
def clsAtLeast (p : Char → Bool) (n : Nat) : RPat := RPat.seq (clsRep p n) (RPat.starCls p)

/-- The key-value pattern: a 2+ run of letters/spaces, a colon or equals,
whitespace, then everything up to a semicolon or newline. -/
def kvPat : RPat :=
  .seq (.grp 1 (clsAtLeast kvKeyClass 2))
    (.seq (.cls (fun c => c = ':' || c = '='))
      (.seq wsStar (.grp 2 (plusCls (fun c => !(c = ';') && !(c = '\n'))))))

/-- extractKeyValuePairs of QRScannerScreen: all key-value matches, keys
trimmed and lower-cased; none when there is no match.  The reduce into a
JS object is modelled by keeping the pairs in match order and giving later
bindings precedence at lookup time (`recGet`). -/
def extractKeyValuePairs (text : String) : Option (List (String × String)) :=
  let ms := matchAllL kvPat (chars text)
  if ms.isEmpty then none
  else some (ms.map (fun m =>
    (jsLowerS (jsTrimS (strOf ((capGet m.2 1).getD []))),
     jsTrimS (strOf ((capGet m.2 2).getD [])))))

def ftAmountPat : RPat :=
  .seq (altP [litCiP "fare", litCiP "total", litCiP "amount",
      .seq (litCiP "rs") (.opt (.cls (fun c => c = '.'))), litCiP "₹", litCiP "inr"])
    (.seq wsStar (.seq (.opt (.cls (fun c => c = ':' || c = '=')))
      (.seq wsStar (.grp 1 (.seq (plusCls isDigitC)
        (.opt (.seq (.cls (fun c => c = '.')) (clsRange isDigitC 1 1))))))))

def ftBillPat : RPat :=
  .seq (altP [litCiP "ticket", litCiP "bill", litCiP "invoice", litCiP "receipt"])
    (.seq wsStar (.seq (.opt (altP [.seq (litCiP "no") (.opt (.cls (fun c => c = '.'))),
        litCiP "#", litCiP "number", litCiP "id"]))
      (.seq wsStar (.seq (.opt (.cls (fun c => c = ':' || c = '=')))
        (.seq wsStar (.grp 1 (plusCls (fun c => isAlnumAZ c || c = '-'))))))))

def ftDatePat : RPat :=
  .seq (altP [litCiP "date", litCiP "dated", litCiP "valid"])
    (.seq wsStar (.seq (.opt (.cls (fun c => c = ':' || c = '=')))
      (.seq wsStar (.grp 1 (.seq (clsRange isDigitC 1 1) (.seq (.cls slashDash)
        (.seq (clsRange isDigitC 1 1) (.seq (.cls slashDash) (clsRange isDigitC 2 2)))))))))

def ftFromPat : RPat :=
  .seq (litCiP "from")
    (.seq wsStar (.seq (.opt (.cls (fun c => c = ':' || c = '=')))
      (.seq wsStar (.grp 1 (plusCls (fun c => isAlnumAZ c || isWsJS c))))))

def ftToPat : RPat :=
  .seq (litCiP "to")
    (.seq wsStar (.seq (.opt (.cls (fun c => c = ':' || c = '=')))
      (.seq wsStar (.grp 1 (plusCls (fun c => isAlnumAZ c || isWsJS c))))))

/-- The day/month swap applied to the captured free-text date before
`new Date`: the capture always has the day-sep-month-sep-year shape, so
the replace rebuilds it as month/day/year. -/
def swapDayMonth (s : String) : String :=
  match splitOnSlashDash (chars s) with
  | [d, m, y] => strOf m ++ "/" ++ strOf d ++ "/" ++ strOf y
  | _ => s

/-- extractBillFromFreeText of QRScannerScreen. -/
def extractBillFromFreeText (text : String) : Option Bill :=
  if text = "" then none
  else
    let cs := chars text
    let amountMatch := rsearch ftAmountPat cs
    let billMatch := rsearch ftBillPat cs
    let dateMatch := rsearch ftDatePat cs
    let fromMatch := rsearch ftFromPat cs
    let toMatch := rsearch ftToPat cs
    let parsedDate : Option Int :=
      match dateMatch with
      | some (_, g, _) => jsDateFromString (swapDayMonth (strOf ((capGet g 1).getD [])))
      | none => none
    some
      { billNumber :=
          match billMatch with
          | some (_, g, _) => some (strOf ((capGet g 1).getD []))
          | none => none
        amount :=
          match amountMatch with
          | some (_, g, _) => some (jsParseFloat ((capGet g 1).getD []))
          | none => none
        date := parsedDate
        fromLoc :=
          match fromMatch with
          | some (_, g, _) => some (jsTrimS (strOf ((capGet g 1).getD [])))
          | none => none
        toLoc :=
          match toMatch with
          | some (_, g, _) => some (jsTrimS (strOf ((capGet g 1).getD [])))
          | none => none
        extractedText := none
        co2Saved := none }

/-! ## QRScannerScreen: hex-float decoding (both copies) -/

/-- The lexical parts of a hex-float literal as the anchored regex of both
copies recognises them: `0x`, hex mantissa, optional `.` + hex fraction,
`p`, optionally signed decimal exponent (i flag). -/
structure HexFloatM where
  intPart : List Char
  fracPart : Option (List Char)
  expPart : List Char
deriving DecidableEq, Repr

def hexFloatLex (value : String) : Option HexFloatM :=
  match chars value with
  | '0' :: x :: rest =>
    if !(x = 'x' || x = 'X') then none
    else
      let ip := rest.takeWhile (fun c => (hexDigitVal c).isSome)
      if ip.isEmpty then none
      else
        let rest1 := rest.drop ip.length
        let fp : Option (List Char) × List Char :=
          match rest1 with
          | '.' :: t =>
            let fd := t.takeWhile (fun c => (hexDigitVal c).isSome)
            if fd.isEmpty then (none, rest1) else (some fd, t.drop fd.length)
          | _ => (none, rest1)
        match fp.2 with
        | p :: rest3 =>
          if !(p = 'p' || p = 'P') then none
          else
            let se : List Char × List Char :=
              match rest3 with
              | '+' :: t => (['+'], t)
              | '-' :: t => (['-'], t)
              | t => ([], t)
            let ed := se.2.takeWhile isDigitC
            if ed.isEmpty || !(se.2.drop ed.length).isEmpty then none
            else some { intPart := ip, fracPart := fp.1, expPart := se.1 ++ ed }
        | [] => none
  | _ => none

/-- Positional fraction value: the sum of digit over 16^(index+1). -/
def hexFracVal (cs : List Char) : ℚ :=
  (cs.foldl (fun (acc : ℚ × ℚ) c =>
    let w := acc.2 / 16
    (acc.1 + (((hexDigitVal c).getD 0 : ℚ)) * w, w)) ((0 : ℚ), (1 : ℚ))).1

/-- parseHexFloat of src/src/screens/QRScannerScreen.tsx (the live screen).
Its regex leaves the fraction group non-capturing, so the destructuring
`[, integerPart, fractionPart = '0', exponentPart]` binds `fractionPart`
to the exponent capture and `exponentPart` to nothing.  The fraction loop
then hits the sign character (parseInt base 16 of '+' or '-' is NaN) and
returns undefined (outer `none`); without a sign the fraction digits parse
but `parseInt(undefined, 10)` is NaN, `2 ** NaN` is NaN, and the function
returns NaN (`some none`).  It never returns the decoded value. -/
def parseHexFloatScreen (value : String) : Option (Option ℚ) :=
  match hexFloatLex value with
  | none => none
  | some m =>
    let fractionPart := m.expPart
    if fractionPart.any (fun c => (hexDigitVal c).isNone) then none
    else some none

/-- parseHexFloat of the repository's second QRScannerScreen copy
(src/unnamed/part_004), whose regex captures the fraction: the faithful
mantissa/exponent reconstruction `(integer + fraction) * 2 ** exponent`. -/
def parseHexFloatAlt (value : String) : Option (Option ℚ) :=
  match hexFloatLex value with
  | none => none
  | some m =>
    let fractionPart := m.fracPart.getD ['0']
    if fractionPart.any (fun c => (hexDigitVal c).isNone) then none
    else
      let integer : ℚ := (hexValOf m.intPart : ℚ)
      let exponent : Int := (jsParseIntDec m.expPart).getD 0
      some (some ((integer + hexFracVal fractionPart) * (2 : ℚ) ^ exponent))

/-! ## QRScannerScreen: the custom segmented metro payload -/

/-- formatRouteSegment: strip leading non-alphanumerics, keep the part
before a pipe, trim; empty results become undefined. -/
def formatRouteSegment (segment : String) : Option String :=
  if segment = "" then none
  else
    let cleaned :=
      jsTrimL (((splitOnChar '|' ((chars segment).dropWhile (fun c => !isAlnumAZ c))).get? 0).getD [])
    if cleaned.isEmpty then none else some (strOf cleaned)

/-- Property names inherited by the empty object literal `knownStations`
from `Object.prototype` that the lookup can actually hit: the lookup key
is `normalized.toLowerCase()` and JS property names are case-sensitive,
so of Object.prototype's own names (constructor, hasOwnProperty,
isPrototypeOf, propertyIsEnumerable, toString, toLocaleString, valueOf,
the getter/setter pairs and the `__proto__` accessor) only the two
all-lowercase ones are reachable. -/
def objectProtoKeys : List String := ["constructor", "__proto__"]

/-- The observable result of a station-code lookup in the source: either a
string (the upper-cased passthrough — the table itself is empty, so no
real station name exists), or the truthy non-string member inherited from
`Object.prototype` (the `Object` constructor function for "constructor",
the prototype object for "__proto__"), named by its key. -/
inductive StationResult where
  | station : String → StationResult
  | protoMember : String → StationResult
deriving DecidableEq, Repr

/-- decodeMetroStationCode of QRScannerScreen, full behaviour: undefined
and blank codes give undefined; `knownStations` is an empty object
LITERAL, so `knownStations[normalized.toLowerCase()]` walks the prototype
chain — a key hitting an inherited `Object.prototype` member yields that
truthy value and `if (mapped) return mapped` returns it; every other code
falls through to the unknown-code branch and is passed through trimmed
and upper-cased. -/
def decodeMetroStationCodeFull (code : Option String) : Option StationResult :=
  match code with
  | none => none
  | some c =>
    if c = "" then none
    else
      let normalized := jsTrimS c
      if normalized = "" then none
      else if objectProtoKeys.contains (jsLowerS normalized) then
        some (StationResult.protoMember (jsLowerS normalized))
      else some (StationResult.station (jsUpperS normalized))

/-- decodeMetroStationCode restricted to codes that do not hit an inherited
`Object.prototype` member (that is, whose trimmed lower-cased form is
neither "constructor" nor "__proto__"); on those codes it agrees with
`decodeMetroStationCodeFull` (see `decodeMetroStationCode_restricted`).
The segmented-payload decoder below is modelled over this restriction;
none of the statements proved about it exercise the two exotic codes. -/
def decodeMetroStationCode (code : Option String) : Option String :=
  match code with
  | none => none
  | some c =>
    if c = "" then none
    else
      let normalized := jsTrimS c
      if normalized = "" then none
      else some (jsUpperS normalized)

def bracePat : RPat :=
  .seq (.cls (fun c => c = lbrace))
    (.seq (.grp 1 (.starCls (fun c => !(c = lbrace) && !(c = rbrace))))
      (.cls (fun c => c = rbrace)))

def anglePat : RPat :=
  .seq (.cls (fun c => c = '<'))
    (.seq (.grp 1 (plusCls (fun c => !(c = '>')))) (.cls (fun c => c = '>')))

/-- Test for a segment that looks like a ticket id: an upper-case letter
with a digit somewhere after it on the same line. -/
def hasDigitBeforeNl : List Char → Bool
  | [] => false
  | c :: rest => if isDigitC c then true else if c = '\n' then false else hasDigitBeforeNl rest

def upperThenDigit : List Char → Bool
  | [] => false
  | c :: rest => (isUpperAZ c && hasDigitBeforeNl rest) || upperThenDigit rest

def ticketCandTest (s : String) : Bool := upperThenDigit (chars s) && (chars s).length ≥ 10

/-- Test for a purely numeric segment with an optional fraction. -/
def numericSegTest (s : String) : Bool :=
  let cs := chars s
  let ip := cs.takeWhile isDigitC
  if ip.isEmpty then false
  else
    match cs.drop ip.length with
    | [] => true
    | '.' :: f => !f.isEmpty && f.all isDigitC
    | _ => false

/-- Test for a 10+-digit segment (epoch timestamp candidate). -/
def epochSegTest (s : String) : Bool :=
  (chars s).length ≥ 10 && (chars s).all isDigitC

/-- Test for a T followed by at least three digits somewhere in the segment. -/
def tTokenTest : List Char → Bool
  | [] => false
  | c :: rest => (c = 'T' && rest.length ≥ 3 && (rest.take 3).all isDigitC) || tTokenTest rest

/-- Test for a run of at least six digits. -/
def digitRunGo : List Char → Nat → Bool
  | [], _ => false
  | c :: rest, run =>
    if isDigitC c then (if run + 1 ≥ 6 then true else digitRunGo rest (run + 1))
    else digitRunGo rest 0

def digits6Test (s : String) : Bool := digitRunGo (chars s) 0

def metroTest : Option String → Bool
  | some s => containsSubCi (chars "metro") (chars s)
  | none => false

/-- parseMetroDateTime of QRScannerScreen: keep only digits and T, split on
T into date and time sections, require an 8-digit date section, skip its
first two-digit pair (century), read year/month/day from the remaining
pairs with the year based at 2000, pad the time section to HHMMSS (plus
optional milliseconds), construct the Date and reject it when the year
rolled (out-of-range month/day/time). -/
def parseMetroDateTime (token : String) : Option Int :=
  let normalized := (chars token).filter (fun c => isDigitC c || c = 'T')
  let parts := splitOnChar 'T' normalized
  let dateSection := (parts.get? 0).getD []
  let timeSection := (parts.get? 1).getD []
  if dateSection.isEmpty || timeSection.isEmpty then none
  else if dateSection.length ≠ 8 then none
  else
    let yearPart := (dateSection.drop 2).take 2
    let monthPart := (dateSection.drop 4).take 2
    let dayPart := (dateSection.drop 6).take 2
    let year := 2000 + (jsParseIntDec yearPart).getD 0
    let month := (jsParseIntDec monthPart).getD 0
    let day := (jsParseIntDec dayPart).getD 0
    let paddedTime := timeSection ++ List.replicate (6 - timeSection.length) '0'
    let hour := (jsParseIntDec (paddedTime.take 2)).getD 0
    let minute := (jsParseIntDec ((paddedTime.drop 2).take 2)).getD 0
    let second := (jsParseIntDec ((paddedTime.drop 4).take 2)).getD 0
    let msPart := if timeSection.length > 6 then (timeSection.drop 6).take 3 else ['0']
    let millisecond := (jsParseIntDec (msPart ++ List.replicate (3 - msPart.length) '0')).getD 0
    let constructed := jsMakeDate year (max 0 (month - 1)) day hour minute second millisecond
    if !jsDateInRange constructed || jsGetFullYear constructed ≠ year then none
    else some constructed

/-- parseCustomMetroPayload of QRScannerScreen (identical in both copies up
to the parseHexFloat they call; the live screen's copy is modelled, so the
hex-float branch uses `parseHexFloatScreen`).  The JS guard
`if (dataSegments.length)` around the first data phase is dropped because
every operation in it is a no-op on the empty segment list; the guard
around the second (station-code) phase is kept because that phase is not
a no-op when a route block set the locations. -/
def metroBraceSections (text : String) : List String :=
  ((matchAllL bracePat (chars text)).map
    (fun m => jsTrimS (strOf ((capGet m.2 1).getD [])))).filter (fun s => s ≠ "")

def metroDataBlock (text : String) : Option String :=
  (metroBraceSections text).find? (fun b =>
    (chars b).contains '|' && (splitOnChar '|' (chars b)).length ≥ 4)

def metroRouteBlock (text : String) : Option String :=
  (metroBraceSections text).find? (fun b =>
    (chars b).contains '<' && (chars b).contains '>')

/-- The trimmed, non-empty pipe-separated segments of the data block. -/
def metroDataSegments (text : String) : List String :=
  match metroDataBlock text with
  | some b => (((splitOnChar '|' (chars b)).map jsTrimL).filter (fun l => !l.isEmpty)).map strOf
  | none => []

def parseCustomMetroPayload (text : String) : Option Bill :=
  let cs := chars text
  if !cs.contains '|' then none
  else
    let routeBlock := metroRouteBlock text
    let dataSegments := metroDataSegments text
    let seg4 := dataSegments.get? 4
    let bd : Option String × Option Int :=
      match seg4 with
      | some s =>
        match parseMetroDateTime s with
        | some d => (none, some d)
        | none => (some s, none)
      | none => (none, none)
    let billNumber := bd.1
    let date := bd.2
    let billNumber :=
      match billNumber with
      | some b => some b
      | none => dataSegments.find? ticketCandTest
    let amount : Option (Option ℚ) :=
      match dataSegments.find? (fun s => (hexFloatLex s).isSome) with
      | some seg => parseHexFloatScreen seg
      | none => none
    let amount :=
      if amount.isNone then
        match dataSegments.find? numericSegTest with
        | some seg => some (jsParseFloatS seg)
        | none => none
      else amount
    let date :=
      match date with
      | some d => some d
      | none =>
        match dataSegments.find? epochSegTest with
        | some seg =>
          let rawValue := (jsParseIntDec (chars seg)).getD 0
          let millis := if rawValue > 1000000000000 then rawValue else rawValue * 1000
          if jsDateInRange millis && 2000 ≤ jsGetFullYear millis && jsGetFullYear millis ≤ 2100
          then some millis else none
        | none => none
    let date :=
      match date with
      | some d => some d
      | none =>
        match dataSegments.find? (fun s => tTokenTest (chars s)) with
        | some tok => parseMetroDateTime tok
        | none => none
    let billNumber :=
      match billNumber with
      | some b => some b
      | none => dataSegments.find? digits6Test
    let fromCode := dataSegments.get? 7
    let toCode := dataSegments.get? 8
    let fromTo : Option String × Option String :=
      if routeBlock.isNone then
        (decodeMetroStationCode fromCode, decodeMetroStationCode toCode)
      else (none, none)
    let rbRes : Option String × Option String × Option Int :=
      match routeBlock with
      | some rb =>
        let segs := (matchAllL anglePat (chars rb)).map (fun m => strOf ((capGet m.2 1).getD []))
        let f := if segs.length ≥ 1 then formatRouteSegment ((segs.get? 0).getD "") else fromTo.1
        let t := if segs.length ≥ 2 then formatRouteSegment ((segs.get? 1).getD "") else fromTo.2
        let d :=
          if date.isNone && segs.length ≥ 3 then
            let dateParts := splitOnChar '|' (chars ((segs.get? 2).getD ""))
            if dateParts.length ≥ 3 then
              match jsParseIntDec ((dateParts.get? 0).getD []),
                    jsParseIntDec ((dateParts.get? 1).getD []),
                    jsParseIntDec ((dateParts.get? 2).getD []) with
              | some dy, some mo, some y2 =>
                let year := y2 + (if y2 ≥ 70 then 1900 else 2000)
                let constructed := jsMakeDate year (max 0 (mo - 1)) dy 0 0 0 0
                if jsDateInRange constructed then some constructed else date
              | _, _, _ => date
            else date
          else date
        (f, t, d)
      | none => (fromTo.1, fromTo.2, date)
    let from0 := rbRes.1
    let to0 := rbRes.2.1
    let date := rbRes.2.2
    let ft : Option String × Option String :=
      if dataSegments.isEmpty then (from0, to0)
      else
        let from1 :=
          if from0.isNone || metroTest from0 then
            match decodeMetroStationCode fromCode with
            | some d => some d
            | none => from0
          else
            match fromCode with
            | some _ =>
              match decodeMetroStationCode fromCode with
              | some d => from0.map (fun s => s ++ " (" ++ d ++ ")")
              | none => from0
            | none => from0
        let to1 :=
          if to0.isNone || (from1.isSome && to0 = from1) || metroTest to0 then
            match decodeMetroStationCode toCode with
            | some d => some d
            | none => if fromCode = toCode then none else to0
          else
            match toCode with
            | some _ =>
              match decodeMetroStationCode toCode with
              | some d => to0.map (fun s => s ++ " (" ++ d ++ ")")
              | none => to0
            | none => to0
        (from1, to1)
    some { billNumber := billNumber, amount := amount, date := date,
           fromLoc := ft.1, toLoc := ft.2, extractedText := none, co2Saved := none }

/-! ## QRScannerScreen: the strategy chain -/

structure ParsedQRCode where
  raw : String
  bill : Option Bill
deriving DecidableEq, Repr

/-- The "has any recognizable value" gate: an all-absent candidate counts
as a decode failure. -/
def gateBill (c : Option Bill) : Option Bill :=
  match c with
  | some b => if hasBillValues b then some b else none
  | none => none

def isJsonObjLike : JSValue → Bool
  | JSValue.jobj _ => true
  | JSValue.jarr _ => true
  | _ => false

/-- String-keyed own properties of a parsed JSON value: an array has none
that the looked-up (non-numeric) keys could hit. -/
def jsonEntries : JSValue → List (String × JSValue)
  | JSValue.jobj fs => fs
  | _ => []

def kvFields (kv : List (String × String)) : List (String × JSValue) :=
  kv.map (fun p => (p.1, JSValue.jstr p.2))

/-- The fallback strategies after the JSON attempt, in source order:
key-value pairs, the custom segmented payload, free text — each gated by
`hasBillValues`. -/
def qrFallbackChain (trimmed : String) : Option Bill :=
  let kvPairs := extractKeyValuePairs trimmed
  let bill := gateBill (kvPairs.map (fun kv => normalizeBillFields (kvFields kv)))
  let bill :=
    match bill with
    | some b => some b
    | none => gateBill (parseCustomMetroPayload trimmed)
  match bill with
  | some b => some b
  | none => gateBill (extractBillFromFreeText trimmed)

/-- parseQRCodeData of QRScannerScreen: trim, try JSON.parse — a successful
parse of an object (or array) RETURNS immediately, with a null bill when
the normalised candidate has no recognizable value; only a JSON failure or
a non-object value falls through to the other strategies. -/
def parseQRCodeData (data : String) : ParsedQRCode :=
  let trimmed := jsTrimS data
  match jsonParse trimmed with
  | some v =>
    if isJsonObjLike v then
      let normalized := normalizeBillFields (jsonEntries v)
      { raw := trimmed, bill := if hasBillValues normalized then some normalized else none }
    else { raw := trimmed, bill := qrFallbackChain trimmed }
  | none => { raw := trimmed, bill := qrFallbackChain trimmed }



/-- The segmented-format payload of claim C5's example. -/
def c5payload : String := "\x7bA|B|C|D|20240115T113000|F|G|STN1|STN2\x7d"

/-! ## Helper lemmas -/

/-- Fuel adequacy and semantics of the CO2 magnitude-correction loop:
with at least `⌈v⌉` fuel the loop result is at most 2, a value already at
most 2 is untouched, and the result is the value divided by some power of
ten. -/
theorem co2ShrinkAux_spec (fuel : ℕ) : ∀ v : ℚ, 0 ≤ v → Int.toNat ⌈v⌉ ≤ fuel →
    co2ShrinkAux fuel v ≤ 2 ∧ (v ≤ 2 → co2ShrinkAux fuel v = v) ∧
      ∃ k : ℕ, co2ShrinkAux fuel v = v / 10 ^ k := by
  induction fuel with
  | zero =>
    intro v hv hf
    have h0 : (⌈v⌉ : ℤ) ≤ 0 := by omega
    have hv2 : v ≤ 0 := by
      have h1 : v ≤ (⌈v⌉ : ℚ) := Int.le_ceil v
      have h2 : ((⌈v⌉ : ℤ) : ℚ) ≤ 0 := by exact_mod_cast h0
      linarith
    have hv0 : v = 0 := le_antisymm hv2 hv
    subst hv0
    refine ⟨by norm_num [co2ShrinkAux], fun _ => rfl, 0, by norm_num [co2ShrinkAux]⟩
  | succ n ih =>
    intro v hv hf
    by_cases h2 : 2 < v
    · have hstep : v / 10 ≤ v - 1 := by linarith
      have hceil : ⌈v / 10⌉ ≤ ⌈v⌉ - 1 := by
        have h1 : ⌈v / 10⌉ ≤ ⌈v - 1⌉ := Int.ceil_le_ceil hstep
        have h2' : ⌈v - (1 : ℚ)⌉ = ⌈v⌉ - 1 := by
          exact_mod_cast Int.ceil_sub_int v (1 : ℤ)
        omega
      have h3 : (3 : ℤ) ≤ ⌈v⌉ := by
        have : (2 : ℤ) < ⌈v⌉ := by
          rw [Int.lt_ceil]
          exact_mod_cast h2
        omega
      have hf2 : Int.toNat ⌈v / 10⌉ ≤ n := by omega
      have hrec := ih (v / 10) (by positivity) hf2
      have hstepEq : co2ShrinkAux (n + 1) v = co2ShrinkAux n (v / 10) := by
        simp [co2ShrinkAux, h2]
      refine ⟨by rw [hstepEq]; exact hrec.1, fun hle => absurd h2 (not_lt.mpr hle), ?_⟩
      obtain ⟨k, hk⟩ := hrec.2.2
      refine ⟨k + 1, ?_⟩
      rw [hstepEq, hk, div_div, pow_succ, mul_comm]
    · push_neg at h2
      have hstepEq : co2ShrinkAux (n + 1) v = v := by
        simp [co2ShrinkAux, not_lt.mpr h2]
      exact ⟨by rw [hstepEq]; exact h2, fun _ => hstepEq, 0, by rw [hstepEq]; norm_num⟩

/-- The loop semantics at the chosen fuel. -/
theorem co2Shrink_spec (v : ℚ) (hv : 0 ≤ v) :
    co2Shrink v ≤ 2 ∧ (v ≤ 2 → co2Shrink v = v) ∧ ∃ k : ℕ, co2Shrink v = v / 10 ^ k :=
  co2ShrinkAux_spec (Int.toNat ⌈v⌉) v hv le_rfl

/-! ## Claim C3 -/

/-- Claim C3 (confirmed): for every raw parsed amount, a value in the band
200 ≤ a < 300 has 200 subtracted (and is then divided by 10 exactly when
the adjusted value still reaches 100, which never happens in the band);
outside the band a value at or above 100 is divided by 10; values below
100 are returned unchanged; raw 214 corrects to 14, raw 150 to 15, and
raw 45 stays 45. -/
theorem amountHeuristics_correction :
    (∀ a : ℚ, 200 ≤ a → a < 300 →
      amountHeuristics a = (if 100 ≤ a - 200 then (a - 200) / 10 else a - 200)) ∧
    (∀ a : ℚ, ¬(200 ≤ a ∧ a < 300) → 100 ≤ a → amountHeuristics a = a / 10) ∧
    (∀ a : ℚ, a < 100 → amountHeuristics a = a) ∧
    amountHeuristics 214 = 14 ∧ amountHeuristics 150 = 15 ∧ amountHeuristics 45 = 45 := by
  refine ⟨?_, ?_, ?_, ?_, ?_, ?_⟩
  · intro a h1 h2
    simp only [amountHeuristics, if_pos (And.intro h1 h2)]
  · intro a h1 h2
    simp only [amountHeuristics, if_neg h1, if_pos h2]
  · intro a h1
    have hband : ¬(200 ≤ a ∧ a < 300) := by
      rintro ⟨h2, _⟩; linarith
    have hdiv : ¬(100 ≤ a) := by linarith
    simp only [amountHeuristics, if_neg hband, if_neg hdiv]
  · norm_num [amountHeuristics]
  · norm_num [amountHeuristics]
  · norm_num [amountHeuristics]

/-! ## Claim C10 -/

/-- Off the two reachable Object.prototype keys, the restricted decoder the
segmented-payload model uses agrees with the full model of the source. -/
theorem decodeMetroStationCode_restricted :
    decodeMetroStationCodeFull none
      = (decodeMetroStationCode none).map StationResult.station ∧
    (∀ c : String, objectProtoKeys.contains (jsLowerS (jsTrimS c)) = false →
      decodeMetroStationCodeFull (some c)
        = (decodeMetroStationCode (some c)).map StationResult.station) := by
  refine ⟨rfl, ?_⟩
  intro c hk
  by_cases hne : c = ""
  · subst hne; rfl
  · by_cases hc : jsTrimS c = ""
    · simp [decodeMetroStationCodeFull, decodeMetroStationCode, hne, hc]
    · simp [decodeMetroStationCodeFull, decodeMetroStationCode, hne, hc]
      simpa using hk

/-- Claim C10 counterexample: the non-blank code "constructor" is NOT passed
through upper-cased — `knownStations` is an empty object literal, so the
lookup `knownStations[normalized.toLowerCase()]` finds the inherited
`Object.prototype.constructor`, a truthy function, and `if (mapped) return
mapped` returns that member instead of "CONSTRUCTOR"; likewise a code
trimming to "__proto__" returns the inherited prototype object. -/
theorem metro_station_code_proto_hit :
    decodeMetroStationCodeFull (some "constructor")
      = some (StationResult.protoMember "constructor") ∧
    decodeMetroStationCodeFull (some "constructor")
      ≠ some (StationResult.station (jsUpperS (jsTrimS "constructor"))) ∧
    decodeMetroStationCodeFull (some " __proto__ ")
      = some (StationResult.protoMember "__proto__") ∧
    decodeMetroStationCodeFull (some " __proto__ ")
      ≠ some (StationResult.station (jsUpperS (jsTrimS " __proto__ "))) := by
  refine ⟨?_, ?_, ?_, ?_⟩ <;> decide

/-- Claim C10 (corrected): the station-code lookup table itself is empty, so
no code is ever translated to a human-readable station name (any string the
decoder produces is exactly the trimmed upper-cased input); a missing or
all-whitespace code gives absent, and a code whose trimmed lower-cased form
is not an inherited Object.prototype key ("constructor", "__proto__") is
passed through trimmed and upper-cased — but a code hitting one of those
keys returns the truthy inherited prototype member instead of the
upper-cased passthrough. -/
theorem decodeMetroStationCodeFull_spec :
    decodeMetroStationCodeFull none = none ∧
    (∀ c : String, jsTrimS c = "" → decodeMetroStationCodeFull (some c) = none) ∧
    (∀ c : String, jsTrimS c ≠ "" →
      objectProtoKeys.contains (jsLowerS (jsTrimS c)) = false →
      decodeMetroStationCodeFull (some c)
        = some (StationResult.station (jsUpperS (jsTrimS c)))) ∧
    (∀ c : String, jsTrimS c ≠ "" →
      objectProtoKeys.contains (jsLowerS (jsTrimS c)) = true →
      decodeMetroStationCodeFull (some c)
        = some (StationResult.protoMember (jsLowerS (jsTrimS c)))) ∧
    (∀ c s, decodeMetroStationCodeFull (some c) = some (StationResult.station s) →
      s = jsUpperS (jsTrimS c)) := by
  have hblank : ∀ c : String, jsTrimS c = "" →
      decodeMetroStationCodeFull (some c) = none := by
    intro c hc
    by_cases hne : c = ""
    · subst hne; rfl
    · simp [decodeMetroStationCodeFull, hne, hc]
  have hpass : ∀ c : String, jsTrimS c ≠ "" →
      objectProtoKeys.contains (jsLowerS (jsTrimS c)) = false →
      decodeMetroStationCodeFull (some c)
        = some (StationResult.station (jsUpperS (jsTrimS c))) := by
    intro c hc hk
    have hne : c ≠ "" := by intro h; subst h; exact hc rfl
    simp [decodeMetroStationCodeFull, hne, hc]
    simpa using hk
  have hproto : ∀ c : String, jsTrimS c ≠ "" →
      objectProtoKeys.contains (jsLowerS (jsTrimS c)) = true →
      decodeMetroStationCodeFull (some c)
        = some (StationResult.protoMember (jsLowerS (jsTrimS c))) := by
    intro c hc hk
    have hne : c ≠ "" := by intro h; subst h; exact hc rfl
    simp [decodeMetroStationCodeFull, hne, hc]
    simpa using hk
  refine ⟨rfl, hblank, hpass, hproto, ?_⟩
  intro c s h
  by_cases hc : jsTrimS c = ""
  · rw [hblank c hc] at h
    exact Option.noConfusion h
  · cases hk : objectProtoKeys.contains (jsLowerS (jsTrimS c)) with
    | true =>
      rw [hproto c hc hk] at h
      exact absurd (Option.some_inj.mp h) (fun hh => StationResult.noConfusion hh)
    | false =>
      rw [hpass c hc hk] at h
      exact (StationResult.station.inj (Option.some_inj.mp h)).symm


/-! ## Claim C4 -/

/-- Claim C4 (confirmed): on a CO2-pattern match the extractor normalises
OCR-confused characters back to digits, uses the first internal whitespace
run as the decimal point when no dot is present, repeatedly divides the
parsed value by 10 while it exceeds 2 (and leaves values at most 2 alone),
and formats to two decimals with the suffix " g CO2"; in particular
"0 59 g C02" yields "0.59 g CO2", "1.02g CO2" yields "1.02 g CO2" with no
magnitude correction, and the misread "0 S9 g CO2" also yields
"0.59 g CO2" through the S-to-5 normalisation. -/
theorem co2_extraction_spec :
    heurCO2 "0 59 g C02" = "0.59 g CO2" ∧
    heurCO2 "1.02g CO2" = "1.02 g CO2" ∧
    heurCO2 "0 S9 g CO2" = "0.59 g CO2" ∧
    (∀ now : Int, (parseWithHeuristics "0 59 g C02" now).co2Saved = some "0.59 g CO2") ∧
    (∀ v : ℚ, 0 ≤ v →
      co2Shrink v ≤ 2 ∧ (v ≤ 2 → co2Shrink v = v) ∧ ∃ k : ℕ, co2Shrink v = v / 10 ^ k) ∧
    (∀ text : String, heurCO2 text ≠ "" →
      ∃ n : ℤ, heurCO2 text = jsFormatHundredths n ++ " g CO2") := by
  have hfmt1 : heurCO2 "0 59 g C02" = "0.59 g CO2" := by
    have h0 : co2Capture "0 59 g C02" = some (chars "0 59 ") := by decide
    have h2 : co2CleanNumber (chars "0 59 ") = chars "0.59" := by decide
    have h3 : jsParseFloat (chars "0.59") = some ((59 : ℚ) / 100) := by
      rw [show jsParseFloat (chars "0.59") =
        some (1 * (((0 : ℕ) : ℚ) + ((59 : ℕ) : ℚ) / (10 : ℚ) ^ (2 : ℕ))) from rfl]
      norm_num
    have h4 : co2Shrink ((59 : ℚ) / 100) = (59 : ℚ) / 100 :=
      (co2Shrink_spec ((59 : ℚ) / 100) (by norm_num)).2.1 (by norm_num)
    have h5 : toFixed2N ((59 : ℚ) / 100) = 59 := by
      rw [toFixed2N, show ((59 : ℚ) / 100 * 100 + 1 / 2 : ℚ) = 119 / 2 by norm_num]
      norm_num [Int.floor_eq_iff]
    simp only [heurCO2, h0, co2Render, h2, h3, h4, h5]
    decide
  have hfmt2 : heurCO2 "1.02g CO2" = "1.02 g CO2" := by
    have h0 : co2Capture "1.02g CO2" = some (chars "1.02") := by decide
    have h2 : co2CleanNumber (chars "1.02") = chars "1.02" := by decide
    have h3 : jsParseFloat (chars "1.02") = some ((51 : ℚ) / 50) := by
      rw [show jsParseFloat (chars "1.02") =
        some (1 * (((1 : ℕ) : ℚ) + ((2 : ℕ) : ℚ) / (10 : ℚ) ^ (2 : ℕ))) from rfl]
      norm_num
    have h4 : co2Shrink ((51 : ℚ) / 50) = (51 : ℚ) / 50 :=
      (co2Shrink_spec ((51 : ℚ) / 50) (by norm_num)).2.1 (by norm_num)
    have h5 : toFixed2N ((51 : ℚ) / 50) = 102 := by
      rw [toFixed2N, show ((51 : ℚ) / 50 * 100 + 1 / 2 : ℚ) = 205 / 2 by norm_num]
      norm_num [Int.floor_eq_iff]
    simp only [heurCO2, h0, co2Render, h2, h3, h4, h5]
    decide
  have hfmt3 : heurCO2 "0 S9 g CO2" = "0.59 g CO2" := by
    have h0 : co2Capture "0 S9 g CO2" = some (chars "0 S9 ") := by decide
    have h2 : co2CleanNumber (chars "0 S9 ") = chars "0.59" := by decide
    have h3 : jsParseFloat (chars "0.59") = some ((59 : ℚ) / 100) := by
      rw [show jsParseFloat (chars "0.59") =
        some (1 * (((0 : ℕ) : ℚ) + ((59 : ℕ) : ℚ) / (10 : ℚ) ^ (2 : ℕ))) from rfl]
      norm_num
    have h4 : co2Shrink ((59 : ℚ) / 100) = (59 : ℚ) / 100 :=
      (co2Shrink_spec ((59 : ℚ) / 100) (by norm_num)).2.1 (by norm_num)
    have h5 : toFixed2N ((59 : ℚ) / 100) = 59 := by
      rw [toFixed2N, show ((59 : ℚ) / 100 * 100 + 1 / 2 : ℚ) = 119 / 2 by norm_num]
      norm_num [Int.floor_eq_iff]
    simp only [heurCO2, h0, co2Render, h2, h3, h4, h5]
    decide
  refine ⟨hfmt1, hfmt2, hfmt3, ?_, fun v hv => co2Shrink_spec v hv, ?_⟩
  · intro now
    show some (heurCO2 "0 59 g C02") = some "0.59 g CO2"
    rw [hfmt1]
  · intro text hne
    match h0 : co2Capture text with
    | none => exact absurd (by simp [heurCO2, h0]) hne
    | some raw =>
      match h1 : jsParseFloat (co2CleanNumber raw) with
      | none => exact absurd (by simp [heurCO2, h0, co2Render, h1]) hne
      | some v =>
        exact ⟨toFixed2N (co2Shrink v), by simp [heurCO2, h0, co2Render, h1]⟩

/-! ## Claim C6 -/

/-- Claim C6 (code bug): the live screen's hex-float decoder never decodes
"0x1.8p+3" to 12 — its misaligned destructuring (the fraction group of its
regex is non-capturing) makes it return undefined for every signed-exponent
literal — while the repository's second copy of the same function decodes
it to 12 exactly as the spec states; on an unsigned exponent the live copy
returns NaN instead. -/
theorem parseHexFloat_live_broken :
    parseHexFloatScreen "0x1.8p+3" = none ∧
    parseHexFloatAlt "0x1.8p+3" = some (some 12) ∧
    parseHexFloatScreen "0x3p2" = some none := by
  refine ⟨by decide, ?_, by decide⟩
  have hl : hexFloatLex "0x1.8p+3" =
      some ⟨['1'], some ['8'], ['+', '3']⟩ := by decide
  have hshape : parseHexFloatAlt "0x1.8p+3" =
      some (some ((((1 : ℕ) : ℚ) + (0 + ((8 : ℕ) : ℚ) * ((1 : ℚ) / 16))) *
        (2 : ℚ) ^ ((1 : ℤ) * ((3 : ℕ) : ℤ)))) := rfl
  rw [hshape]
  norm_num


/-! ## Claim C2 -/

/-- Claim C2 counterexample: an OCR candidate whose origin is present but
empty does not win the merge — the JS or-operator treats the empty string
as falsy, so the QR origin is taken instead, contradicting the claim's
"origin equals the OCR candidate's value when present". -/
theorem merge_empty_origin_not_kept :
    ({ emptyBill with billNumber := some "A1", fromLoc := some "" } : Bill).fromLoc =
      some "" ∧
    (mergeBillData { emptyBill with billNumber := some "A1", fromLoc := some "" }
      { emptyBill with billNumber := some "B2", fromLoc := some "Y" }).fromLoc = some "Y" ∧
    (some "Y" : Option String) ≠ some "" := by
  refine ⟨rfl, rfl, by decide⟩

/-- Claim C2 amended (proved): in the merge, ticket number, amount and date
are the QR candidate's value when present there, else the OCR candidate's;
origin and destination are the OCR value when present and non-empty, else
the QR value when present and non-empty, else the literal "Unknown"; and
the claim's example merges to ticket "B2" with origin "X". -/
theorem mergeBillData_precedence :
    (∀ o q : Bill, ∀ v, q.billNumber = some v → (mergeBillData o q).billNumber = some v) ∧
    (∀ o q : Bill, q.billNumber = none → (mergeBillData o q).billNumber = o.billNumber) ∧
    (∀ o q : Bill, ∀ v, q.amount = some v → (mergeBillData o q).amount = some v) ∧
    (∀ o q : Bill, q.amount = none → (mergeBillData o q).amount = o.amount) ∧
    (∀ o q : Bill, ∀ v, q.date = some v → (mergeBillData o q).date = some v) ∧
    (∀ o q : Bill, q.date = none → (mergeBillData o q).date = o.date) ∧
    (∀ o q : Bill, ∀ s, o.fromLoc = some s → s ≠ "" → (mergeBillData o q).fromLoc = some s) ∧
    (∀ o q : Bill, ∀ s, truthyStr o.fromLoc = none → q.fromLoc = some s → s ≠ "" →
      (mergeBillData o q).fromLoc = some s) ∧
    (∀ o q : Bill, truthyStr o.fromLoc = none → truthyStr q.fromLoc = none →
      (mergeBillData o q).fromLoc = some "Unknown") ∧
    (∀ o q : Bill, ∀ s, o.toLoc = some s → s ≠ "" → (mergeBillData o q).toLoc = some s) ∧
    (∀ o q : Bill, ∀ s, truthyStr o.toLoc = none → q.toLoc = some s → s ≠ "" →
      (mergeBillData o q).toLoc = some s) ∧
    (∀ o q : Bill, truthyStr o.toLoc = none → truthyStr q.toLoc = none →
      (mergeBillData o q).toLoc = some "Unknown") ∧
    (mergeBillData { emptyBill with billNumber := some "A1", fromLoc := some "X" }
      { emptyBill with billNumber := some "B2", fromLoc := some "Y" }).billNumber =
      some "B2" ∧
    (mergeBillData { emptyBill with billNumber := some "A1", fromLoc := some "X" }
      { emptyBill with billNumber := some "B2", fromLoc := some "Y" }).fromLoc =
      some "X" := by
  refine ⟨?_, ?_, ?_, ?_, ?_, ?_, ?_, ?_, ?_, ?_, ?_, ?_, rfl, rfl⟩
  · intro o q v h; simp [mergeBillData, spreadOr, h]
  · intro o q h; simp [mergeBillData, spreadOr, h]
  · intro o q v h; simp [mergeBillData, spreadOr, h]
  · intro o q h; simp [mergeBillData, spreadOr, h]
  · intro o q v h; simp [mergeBillData, spreadOr, h]
  · intro o q h; simp [mergeBillData, spreadOr, h]
  · intro o q s h hs; simp [mergeBillData, truthyStr, h, hs, Option.orElse]
  · intro o q s h hq hs
    simp only [mergeBillData]
    rw [h, hq]
    simp [truthyStr, hs, Option.orElse]
  · intro o q h hq
    simp only [mergeBillData]
    rw [h, hq]
    simp [Option.orElse]
  · intro o q s h hs; simp [mergeBillData, truthyStr, h, hs, Option.orElse]
  · intro o q s h hq hs
    simp only [mergeBillData]
    rw [h, hq]
    simp [truthyStr, hs, Option.orElse]
  · intro o q h hq
    simp only [mergeBillData]
    rw [h, hq]
    simp [Option.orElse]

/-! ## Claim C1 -/

/-- Claim C1 counterexample: the input text "hello" makes the extraction
pipeline raise the Pune-Metro validation error to its caller (the catch
block re-throws exactly this error by message), so an error originating in
the extraction logic is visible to the caller. -/
theorem extract_throws_validation_error :
    extractFromText "hello" 0 = Except.error puneErrorMsg := by
  have h : isValidPuneMetroTicket "hello" = false := by decide
  simp [extractFromText, h]

/-- Claim C1 amended (proved): the text path of the extraction never
raises any exception except the Pune-Metro validation error, which
propagates exactly when the text is non-empty and fails
`isValidPuneMetroTicket`; on every valid text the call returns the merged
heuristic record. -/
theorem extractFromText_no_throw_spec :
    (∀ (text : String) (now : Int),
      (∃ b, extractFromText text now = Except.ok b) ∨
        extractFromText text now = Except.error puneErrorMsg) ∧
    (∀ (text : String) (now : Int),
      extractFromText text now = Except.error puneErrorMsg ↔
        text ≠ "" ∧ isValidPuneMetroTicket text = false) ∧
    (∀ (text : String) (now : Int), isValidPuneMetroTicket text = true →
      extractFromText text now =
        Except.ok (mergeBillData (parseWithHeuristics text now) emptyBill)) := by
  have hcases : ∀ (text : String) (now : Int),
      extractFromText text now =
        (if text = "" then Except.ok (getMockData now)
         else if isValidPuneMetroTicket text then
           Except.ok (mergeBillData (parseWithHeuristics text now) emptyBill)
         else Except.error puneErrorMsg) := by
    intro text now
    by_cases h0 : text = "" <;> by_cases h1 : isValidPuneMetroTicket text <;>
      simp [extractFromText, h0, h1]
  refine ⟨?_, ?_, ?_⟩
  · intro text now
    rw [hcases]
    by_cases h0 : text = ""
    · exact Or.inl ⟨getMockData now, by simp [h0]⟩
    · by_cases h1 : isValidPuneMetroTicket text
      · exact Or.inl ⟨mergeBillData (parseWithHeuristics text now) emptyBill,
          by simp [h0, h1]⟩
      · exact Or.inr (by simp [h0, h1])
  · intro text now
    rw [hcases]
    by_cases h0 : text = "" <;> by_cases h1 : isValidPuneMetroTicket text <;>
      simp [h0, h1]
  · intro text now h1
    rw [hcases]
    by_cases h0 : text = ""
    · subst h0
      exact absurd h1 (by decide)
    · simp [h0, h1]


/-! ## Claim C8 -/

/-- Claim C8 counterexample: the OCR extraction is not a pure function of
its text — on a text with no recoverable date or ticket number, two
invocations at different clock times return different records (the
synthesized placeholder embeds `Date.now()` and the date falls back to
`new Date()`). -/
theorem ocr_extraction_time_dependent :
    parseWithHeuristics "A" 0 ≠ parseWithHeuristics "A" 1 := by
  intro h
  have hb := congrArg Bill.billNumber h
  exact absurd hb (by decide)

/-- Claim C8 amended (proved): the extraction is deterministic — equal on
any two clock instants — exactly on the texts where both the date pattern
and a ticket-number pattern match, the two sites where the source consults
the clock being the fallbacks for those two fields; all remaining fields
never depend on the clock. -/
theorem ocr_extraction_deterministic :
    ∀ (text : String) (t1 t2 : Int), heurDateVal text ≠ "" → heurBillNo text ≠ "" →
      parseWithHeuristics text t1 = parseWithHeuristics text t2 := by
  intro text t1 t2 hd hb
  simp only [parseWithHeuristics, heurDateObj, if_neg hd, if_pos hb]

/-- Witness for the amended C8 theorem at a concrete ticket text. -/
theorem ocr_extraction_deterministic_witness :
    heurDateVal "Ticket No: ABC123 Date 12/10/24" ≠ "" ∧
    heurBillNo "Ticket No: ABC123 Date 12/10/24" ≠ "" ∧
    parseWithHeuristics "Ticket No: ABC123 Date 12/10/24" 0 =
      parseWithHeuristics "Ticket No: ABC123 Date 12/10/24" 12345 :=
  ⟨by decide, by decide,
    ocr_extraction_deterministic "Ticket No: ABC123 Date 12/10/24" 0 12345
      (by decide) (by decide)⟩

/-! ## Claim C9 -/

/-- Claim C9 counterexample: the text "Ticket 5" makes the generic
ticket-number pattern match and the record carries the one-character
ticket number "5" — no 6-character minimum is enforced anywhere in
`parseWithHeuristics`. -/
theorem short_ticket_number_returned :
    heurBillNo "Ticket 5" = "5" ∧
    (parseWithHeuristics "Ticket 5" 0).billNumber = some "5" ∧
    ("5" : String).length < 6 := by
  refine ⟨by decide, by decide, by decide⟩

/-- Claim C9 amended (proved): a matched ticket-number value is returned
verbatim whatever its length (values shorter than 6 characters occur, as
the final conjunct shows), and the ticket-number field is never the empty
string — a miss is replaced by the synthesized placeholder. -/
theorem billNumber_shape_spec :
    (∀ (text : String) (now : Int), heurBillNo text ≠ "" →
      (parseWithHeuristics text now).billNumber = some (heurBillNo text)) ∧
    (∀ (text : String) (now : Int), ∀ s,
      (parseWithHeuristics text now).billNumber = some s → s ≠ "") ∧
    (∃ text : String, heurBillNo text ≠ "" ∧ (heurBillNo text).length < 6) := by
  have hproj : ∀ (text : String) (now : Int),
      (parseWithHeuristics text now).billNumber =
        some (if heurBillNo text ≠ "" then heurBillNo text else "BILL" ++ toString now) := by
    intro text now; rfl
  refine ⟨?_, ?_, ⟨"Ticket 5", by decide, by decide⟩⟩
  · intro text now hb
    rw [hproj, if_pos hb]
  · intro text now s h
    rw [hproj] at h
    have hs := Option.some_inj.mp h
    by_cases hb : heurBillNo text ≠ ""
    · rw [if_pos hb] at hs
      exact hs ▸ hb
    · rw [if_neg hb] at hs
      intro he
      have hlen : ("BILL" ++ toString now).length = 4 + (toString now).length := by
        rw [String.length_append]
        rfl
      rw [hs, he] at hlen
      rw [show ("" : String).length = 0 from rfl] at hlen
      omega


/-! ## Claim C5 -/

/-- Claim C5 counterexample: on the example payload the decoder does not
return the bare decoded station codes — the second station-code pass
appends the decoded code in parentheses even when it merely duplicates the
already-decoded value, so the origin is "STN1 (STN1)", not "STN1". -/
theorem metro_station_code_duplicated :
    (parseCustomMetroPayload c5payload).bind Bill.fromLoc = some "STN1 (STN1)" ∧
    (parseCustomMetroPayload c5payload).bind Bill.fromLoc ≠ some "STN1" := by
  have h : (parseCustomMetroPayload c5payload).bind Bill.fromLoc = some "STN1 (STN1)" := by
    decide
  exact ⟨h, by rw [h]; decide⟩

/-- Claim C5 amended (proved): when segment 4 of the data block parses as a
compact timestamp it becomes the transaction date, otherwise it becomes
the ticket number; on the example payload the date is segment 4's
2024-01-15 11:30:00 and origin/destination are derived from segments 7 and
8, but as "STN1 (STN1)" / "STN2 (STN2)" — the decoded code with itself
appended parenthetically — rather than the bare codes. -/
theorem metro_seg4_spec :
    (∀ (text s : String) (d : Int), (chars text).contains '|' = true →
      (metroDataSegments text).get? 4 = some s → parseMetroDateTime s = some d →
      ∃ b, parseCustomMetroPayload text = some b ∧ b.date = some d) ∧
    (∀ (text s : String), (chars text).contains '|' = true →
      (metroDataSegments text).get? 4 = some s → parseMetroDateTime s = none →
      ∃ b, parseCustomMetroPayload text = some b ∧ b.billNumber = some s) ∧
    parseCustomMetroPayload c5payload = some
      { billNumber := some "20240115T113000", amount := none,
        date := some (jsMakeDate 2024 0 15 11 30 0 0),
        fromLoc := some "STN1 (STN1)", toLoc := some "STN2 (STN2)",
        extractedText := none, co2Saved := none } ∧
    parseMetroDateTime "20240115T113000" = some (jsMakeDate 2024 0 15 11 30 0 0) ∧
    civilFromDays (Int.fdiv (jsMakeDate 2024 0 15 11 30 0 0) msPerDay) = (2024, 1, 15) ∧
    Int.emod (jsMakeDate 2024 0 15 11 30 0 0) msPerDay = 41400000 := by
  refine ⟨?_, ?_, by decide, by decide, by decide, by decide⟩
  · intro text s d hpipe h4 hd
    match hrb : metroRouteBlock text with
    | none =>
      simp only [parseCustomMetroPayload, hpipe, h4, hd, hrb, Bool.not_true,
        Bool.false_eq_true, if_false, Option.isNone_some, Bool.false_and,
        Option.isNone_none]
      exact ⟨_, rfl, rfl⟩
    | some rb =>
      simp only [parseCustomMetroPayload, hpipe, h4, hd, hrb, Bool.not_true,
        Bool.false_eq_true, if_false, Option.isNone_some, Bool.false_and,
        Option.isNone_none]
      exact ⟨_, rfl, rfl⟩
  · intro text s hpipe h4 hd
    simp only [parseCustomMetroPayload, hpipe, h4, hd, Bool.not_true, Bool.false_eq_true,
      if_false]
    exact ⟨_, rfl, rfl⟩

/-! ## Claim C7 -/

/-- Claim C7 counterexample: a payload that parses as a JSON object with no
recognizable field returns an empty decode (bill null) even though the
next strategy (key-value text) would have produced a candidate with a
recognizable value — contradicting "that candidate is discarded and the
next strategy in the order is tried ... including after a successful JSON
parse". -/
theorem json_object_shortcircuits :
    (parseQRCodeData "\x7b\"note\":\"fare: 25\"\x7d").bill = none ∧
    (extractKeyValuePairs "\x7b\"note\":\"fare: 25\"\x7d").map
      (fun kv => hasBillValues (normalizeBillFields (kvFields kv))) = some true := by
  exact ⟨by decide, by decide⟩

/-- Claim C7 amended (proved): the decoder tries JSON, key-value text, the
custom segmented format and the free-text fallback in that fixed order,
and each post-JSON strategy's candidate is discarded in favour of the next
when every bill field is absent (the hasBillValues gate); HOWEVER a
payload that parses as a JSON object (or array) short-circuits: its
normalisation is returned immediately, with a null bill when it has no
recognizable field, and the remaining strategies are not tried. -/
theorem qr_strategy_order_spec :
    (∀ (s : String) (v : JSValue), jsonParse (jsTrimS s) = some v → isJsonObjLike v = true →
      (parseQRCodeData s).bill =
        (if hasBillValues (normalizeBillFields (jsonEntries v)) then
          some (normalizeBillFields (jsonEntries v)) else none)) ∧
    (∀ (s : String) (v : JSValue), jsonParse (jsTrimS s) = some v → isJsonObjLike v = false →
      (parseQRCodeData s).bill = qrFallbackChain (jsTrimS s)) ∧
    (∀ s : String, jsonParse (jsTrimS s) = none →
      (parseQRCodeData s).bill = qrFallbackChain (jsTrimS s)) ∧
    (∀ t : String, qrFallbackChain t =
      (match gateBill ((extractKeyValuePairs t).map
          (fun kv => normalizeBillFields (kvFields kv))) with
       | some b => some b
       | none =>
         match gateBill (parseCustomMetroPayload t) with
         | some b => some b
         | none => gateBill (extractBillFromFreeText t))) ∧
    (∀ s : String, (parseQRCodeData s).raw = jsTrimS s) := by
  refine ⟨?_, ?_, ?_, ?_, ?_⟩
  · intro s v h hv
    simp only [parseQRCodeData, h, hv, if_true]
  · intro s v h hv
    simp only [parseQRCodeData, h, hv, Bool.false_eq_true, if_false]
  · intro s h
    simp only [parseQRCodeData, h]
  · intro t
    cases h1 : gateBill ((extractKeyValuePairs t).map
        (fun kv => normalizeBillFields (kvFields kv))) with
    | some b => simp [qrFallbackChain, h1]
    | none =>
      cases h2 : gateBill (parseCustomMetroPayload t) with
      | some b => simp [qrFallbackChain, h1, h2]
      | none => simp [qrFallbackChain, h1, h2]
  · intro s
    match h : jsonParse (jsTrimS s) with
    | none => simp only [parseQRCodeData, h]
    | some v =>
      by_cases hv : isJsonObjLike v <;>
        simp only [parseQRCodeData, h, hv, Bool.false_eq_true, if_true, if_false]

end Jagrut
